import Mathlib

/-!
Verification development for the result-classification and export stage of the
biodivine boolnet classifier (file src/classifier/src/write_output.rs).

The symbolic color sets of the external library are modelled as finite sets of
natural numbers; the zip container and the filesystem are modelled as an explicit
state machine driven by an environment that decides which primitive operation
succeeds.  Fallible steps return an Except value whose error carries the overall
run result together with the state at the moment of failure, mirroring the early
returns of the Rust code; unwrapped errors are modelled as panic results.
-/

set_option maxHeartbeats 1000000

namespace WriteOutput

/-- Model of the external symbolic color set type (GraphColors): a finite set of
colors.  The code only uses intersection, difference, emptiness, approximate
cardinality and serialization of such sets. -/
abbrev GraphColors := Finset Nat

/-- Model of GraphColors.intersect from the external set library. -/
def GraphColors.intersect (a b : GraphColors) : GraphColors := a ∩ b

/-- Model of GraphColors.minus (set difference) from the external set library. -/
def GraphColors.minus (a b : GraphColors) : GraphColors := a \ b

/-- Model of GraphColors.is_empty from the external set library. -/
def GraphColors.isEmptySet (a : GraphColors) : Bool := a = ∅

/-- Model of GraphColors.approx_cardinality: the model uses the exact cardinality
as a natural number.  In the code the value is a float, and the report formats it
with zero decimal places, which for the cardinalities in question prints exactly
the digits of the integer; the model therefore formats it with toString. -/
def approxCardinality (a : GraphColors) : Nat := a.card

/-- Model of the external BDD serialization (as_bdd followed by write_as_string):
an injective textual dump of the color set. -/
def bddDumpContent (s : GraphColors) : String := toString (s.sort (fun a b => a ≤ b))

/-- Transform integer into a corresponding binary number of the given length,
most significant bit first.  Faithful to int_to_bool_vec in write_output.rs:
a vector of bits_num false values is preallocated and position
bits_num - i - 1 receives bit i of the number.  The i32 argument is modelled
as Nat because every caller passes a nonnegative index below 2 ^ 30. -/
def int_to_bool_vec (number : Nat) (bits_num : Nat) : List Bool :=
  (List.range bits_num).foldl
    (fun bits i => bits.set (bits_num - i - 1) (((number >>> i) &&& 1) == 1))
    (List.replicate bits_num false)

/-- Convert a vector of bools to the corresponding binary string
(bool_vec_to_string in write_output.rs). -/
def bool_vec_to_string (bool_data : List Bool) : String :=
  String.mk (bool_data.map (fun x => if x then '1' else '0'))

/-- Interpret a string over the characters 1 and 0 as a binary number read left
to right, most significant bit first: the reading direction the specification
assigns to class labels. -/
def binaryStringValue (s : String) : Nat :=
  s.data.foldl (fun acc c => 2 * acc + (if c = '1' then 1 else 0)) 0

/-- Interpret a list of booleans as a binary number, most significant bit
first. -/
def natOfBitsMSB (l : List Bool) : Nat :=
  l.foldl (fun acc b => 2 * acc + cond b 1 0) 0

/-- The per-combination class set: starting from the baseline, intersect with
property j where the validity bit is true and subtract it where it is false
(the inner loop of write_class_report_and_dump_bdds). -/
def categoryColors (all_valid_colors : GraphColors) (property_results : List GraphColors)
    (validity : List Bool) : GraphColors :=
  (property_results.zip validity).foldl
    (fun category_colors sv =>
      if sv.2 then GraphColors.intersect category_colors sv.1
      else GraphColors.minus category_colors sv.1)
    all_valid_colors

/-- The textual label of combination index i over n properties. -/
def classLabel (n i : Nat) : String := bool_vec_to_string (int_to_bool_vec i n)

/-- The class set derived for combination index i, as computed by the loop of
write_class_report_and_dump_bdds. -/
def classColors (all_valid_colors : GraphColors) (property_results : List GraphColors)
    (i : Nat) : GraphColors :=
  categoryColors all_valid_colors property_results (int_to_bool_vec i property_results.length)

/-- The combination indices enumerated by the classification loop: the code
computes number_of_combinations as 1 shifted left by the property count and
iterates from 0 upwards. -/
def combinationIndices (n : Nat) : List Nat := List.range (1 <<< n)

/-- The archive entry name of the dump of class i. -/
def dumpEntryName (n i : Nat) : String := "bdd_dump_" ++ classLabel n i ++ ".txt"

/-- Events recording the externally visible filesystem and container calls. -/
inductive ZipEvent where
  | createDirAll (path : String)
  | createFile (path : String)
  | startFile (entryName : String)
  | finishArchive
deriving DecidableEq

/-- Is this event a directory creation? -/
def ZipEvent.isCreateDir : ZipEvent → Bool
  | ZipEvent.createDirAll _ => true
  | _ => false

/-- Environment describing which filesystem and container operations succeed.
dirExists states whether the parent directory of the target path already
exists; the remaining fields decide the success of each primitive call
(entry creation and content writes are indexed by the call counter). -/
structure FsEnv where
  dirExists : Bool
  createDirOk : Bool
  createFileOk : Bool
  startFileOk : Nat → Bool
  zipWriteOk : Nat → Bool
  finishOk : Bool

/-- State of the filesystem and the zip container being written: the event
trace, the completed entries, the entry currently open (the zip writer keeps
one entry open at a time), call counters, and whether the parent directories
of the target have been ensured by create_dir_all. -/
structure ZipState where
  events : List ZipEvent
  entries : List (String × String)
  current : Option (String × String)
  startCount : Nat
  writeCount : Nat
  dirsEnsured : Bool
deriving DecidableEq

/-- The initial state: nothing written yet. -/
def ZipState.init : ZipState :=
  { events := [], entries := [], current := none,
    startCount := 0, writeCount := 0, dirsEnsured := false }

/-- Result of a run: normal return, an io error returned to the caller, or a
process-terminating panic carrying its message. -/
inductive RunResult where
  | ok
  | ioErr
  | panic (msg : String)
deriving DecidableEq

/-- Panic message of unwrap on a missing path parent. -/
def unwrapNoneMsg : String := "called Option unwrap on a None value"

/-- Panic message of unwrap on a failed zip operation. -/
def zipUnwrapMsg : String := "called Result unwrap on an Err value"

/-- Panic message of an out of bounds index into property_results. -/
def indexPanicMsg : String := "index out of bounds"

/-- Panic message of the property count assertion. -/
def assertFailMsg : String := "assertion failed: property_results.len() < 31"

/-- Model of the standard library path parent operation: none for the empty or
root path, otherwise the path with its final component removed (the characters
after the last slash, and that slash, are dropped; a path with a single
component has the empty parent). -/
def pathParent (s : String) : Option String :=
  if s = "" || s = "/" then none
  else
    some (String.mk (((s.data.reverse.dropWhile (fun c => c ≠ '/')).drop 1).reverse))

/-- Model of std::fs::create_dir_all followed by the question mark operator:
records the call, and on success marks the directories as ensured. -/
def fsCreateDirAll (env : FsEnv) (st : ZipState) (p : String) :
    Except (RunResult × ZipState) ZipState :=
  let st1 : ZipState := { st with events := st.events ++ [ZipEvent.createDirAll p] }
  if env.createDirOk then Except.ok { st1 with dirsEnsured := true }
  else Except.error (RunResult.ioErr, st1)

/-- Model of File::create followed by the question mark operator: fails with an
io error when the environment says so or when the parent directory neither
existed nor was created. -/
def fsCreateFile (env : FsEnv) (st : ZipState) (path : String) :
    Except (RunResult × ZipState) ZipState :=
  let st1 : ZipState := { st with events := st.events ++ [ZipEvent.createFile path] }
  if env.createFileOk && (env.dirExists || st.dirsEnsured) then Except.ok st1
  else Except.error (RunResult.ioErr, st1)

/-- Model of ZipWriter::start_file followed by unwrap: closes the previously
open entry, opens a new empty one, and panics when the call fails. -/
def zipStartFile (env : FsEnv) (st : ZipState) (entryName : String) :
    Except (RunResult × ZipState) ZipState :=
  let st1 : ZipState :=
    { st with
      events := st.events ++ [ZipEvent.startFile entryName],
      startCount := st.startCount + 1 }
  if env.startFileOk st.startCount then
    Except.ok
      { st1 with
        entries := st1.entries ++ st1.current.toList,
        current := some (entryName, "") }
  else
    Except.error (RunResult.panic zipUnwrapMsg, st1)

/-- Model of a content write into the archive followed by the question mark
operator: appends to the open entry, or returns an io error. -/
def zipWrite (env : FsEnv) (st : ZipState) (data : String) :
    Except (RunResult × ZipState) ZipState :=
  let st1 : ZipState := { st with writeCount := st.writeCount + 1 }
  if env.zipWriteOk st.writeCount then
    Except.ok { st1 with current := st1.current.map (fun e => (e.1, e.2 ++ data)) }
  else
    Except.error (RunResult.ioErr, st1)

/-- Model of ZipWriter::finish followed by unwrap: closes the open entry and
the archive, and panics when the call fails. -/
def zipFinish (env : FsEnv) (st : ZipState) :
    Except (RunResult × ZipState) ZipState :=
  let st1 : ZipState := { st with events := st.events ++ [ZipEvent.finishArchive] }
  if env.finishOk then
    Except.ok
      { st1 with
        entries := st1.entries ++ st1.current.toList,
        current := none }
  else
    Except.error (RunResult.panic zipUnwrapMsg, st1)

/-- The lines of the section Property formulae individually.  The loop of the
code indexes property_results by the position inside named_property_formulae,
so it panics (none) when the results list is shorter than the names list. -/
def propertyLines : List (String × String) → List GraphColors → Option String
  | [], _ => some ""
  | np :: rest, r :: rs =>
      (propertyLines rest rs).map (fun tail =>
        "# " ++ np.1 ++ "  |  " ++ np.2 ++ "\n" ++
        toString (approxCardinality r) ++ " colors satisfy this property\n\n" ++ tail)
  | _ :: _, [] => none

/-- The classification loop of write_class_report_and_dump_bdds over the given
combination indices: append the class block to the report and, when the class
set is not empty, start a dump entry (unwrap) and write the serialized set. -/
def classLoop (env : FsEnv) (all_valid_colors : GraphColors)
    (property_results : List GraphColors) :
    List Nat → ZipState → String → Except (RunResult × ZipState) (ZipState × String)
  | [], st, report => Except.ok (st, report)
  | i :: rest, st, report =>
      let validity := int_to_bool_vec i property_results.length
      let category_colors := categoryColors all_valid_colors property_results validity
      let report1 := report ++ "# " ++ bool_vec_to_string validity ++ "\n" ++
        toString (approxCardinality category_colors) ++ " colors in this category\n\n"
      if GraphColors.isEmptySet category_colors then
        classLoop env all_valid_colors property_results rest st report1
      else
        match zipStartFile env st ("bdd_dump_" ++ bool_vec_to_string validity ++ ".txt") with
        | Except.error r => Except.error r
        | Except.ok st1 =>
          match zipWrite env st1 (bddDumpContent category_colors) with
          | Except.error r => Except.error r
          | Except.ok st2 => classLoop env all_valid_colors property_results rest st2 report1

/-- The body of write_class_report_and_dump_bdds: resolve the parent directory
(unwrap), create directories and the archive file, write the metadata entry,
build the report buffer section by section, check the property count
assertion, run the classification loop, then write the report entry and
finish the archive. -/
def runClass (env : FsEnv) (assertion_formulae : List String)
    (all_valid_colors : GraphColors) (named_property_formulae : List (String × String))
    (property_results : List GraphColors) (archive_name : String) (num_hctl_vars : Nat) :
    Except (RunResult × ZipState) ZipState :=
  match pathParent archive_name with
  | none => Except.error (RunResult.panic unwrapNoneMsg, ZipState.init)
  | some parentDir => do
    let st ← fsCreateDirAll env ZipState.init parentDir
    let st ← fsCreateFile env st archive_name
    let st ← zipStartFile env st "metadata.txt"
    let st ← zipWrite env st (toString num_hctl_vars ++ "\n")
    let report := "### Assertion formulae\n\n"
    let report := assertion_formulae.foldl (fun r a => r ++ "# " ++ a ++ "\n") report
    let report := report ++ toString (approxCardinality all_valid_colors) ++
      " colors satisfy all assertions\n\n"
    let report := report ++ "### Property formulae individually\n\n"
    match propertyLines named_property_formulae property_results with
    | none => Except.error (RunResult.panic indexPanicMsg, st)
    | some propertySection => do
      let report := report ++ propertySection ++ "### Classes\n\n"
      if property_results.length < 31 then do
        let res ← classLoop env all_valid_colors property_results
          (combinationIndices property_results.length) st report
        let st ← zipStartFile env res.1 "report.txt"
        let st ← zipWrite env st res.2
        let st ← zipFinish env st
        Except.ok st
      else
        Except.error (RunResult.panic assertFailMsg, st)

/-- write_class_report_and_dump_bdds from write_output.rs, returning the run
result together with the final filesystem and container state. -/
def write_class_report_and_dump_bdds (env : FsEnv) (assertion_formulae : List String)
    (all_valid_colors : GraphColors) (named_property_formulae : List (String × String))
    (property_results : List GraphColors) (archive_name : String) (num_hctl_vars : Nat) :
    RunResult × ZipState :=
  match runClass env assertion_formulae all_valid_colors named_property_formulae
      property_results archive_name num_hctl_vars with
  | Except.error r => r
  | Except.ok st => (RunResult.ok, st)

/-- The loop of write_empty_report writing one line per assertion into the
open report entry. -/
def writeAssertionLines (env : FsEnv) :
    List String → ZipState → Except (RunResult × ZipState) ZipState
  | [], st => Except.ok st
  | a :: rest, st => do
      let st ← zipWrite env st ("# " ++ a ++ "\n")
      writeAssertionLines env rest st

/-- The body of write_empty_report: create the archive file (no parent
directory handling in this function), open the report entry, write the
one-section report, finish. -/
def runEmpty (env : FsEnv) (assertion_formulae : List String) (archive_name : String) :
    Except (RunResult × ZipState) ZipState := do
  let st ← fsCreateFile env ZipState.init archive_name
  let st ← zipStartFile env st "report.txt"
  let st ← zipWrite env st "### Assertion formulae\n"
  let st ← zipWrite env st "\n"
  let st ← writeAssertionLines env assertion_formulae st
  let st ← zipWrite env st "0 colors satisfy all assertions\n"
  let st ← zipWrite env st "\n"
  let st ← zipFinish env st
  Except.ok st

/-- write_empty_report from write_output.rs, returning the run result together
with the final filesystem and container state. -/
def write_empty_report (env : FsEnv) (assertion_formulae : List String)
    (archive_name : String) : RunResult × ZipState :=
  match runEmpty env assertion_formulae archive_name with
  | Except.error r => r
  | Except.ok st => (RunResult.ok, st)

/-- The environment in which every filesystem and container operation
succeeds and the parent directory of the target already exists. -/
def okEnv : FsEnv :=
  { dirExists := true, createDirOk := true, createFileOk := true,
    startFileOk := fun _ => true, zipWriteOk := fun _ => true, finishOk := true }

/-- An environment succeeds when every failure control answers true; the
pre-existence of the parent directory is not constrained. -/
def FsEnv.allOk (env : FsEnv) : Prop :=
  env.createDirOk = true ∧ env.createFileOk = true ∧
  (∀ k, env.startFileOk k = true) ∧ (∀ k, env.zipWriteOk k = true) ∧
  env.finishOk = true

/-- The report blocks the classification loop appends for the given
combination indices. -/
def reportBlocks (all_valid_colors : GraphColors) (property_results : List GraphColors)
    (idxs : List Nat) : String :=
  String.join (idxs.map (fun i =>
    "# " ++ classLabel property_results.length i ++ "\n" ++
    toString (approxCardinality (classColors all_valid_colors property_results i)) ++
    " colors in this category\n\n"))

/-- The dump entries the classification loop produces for the given
combination indices: one per non-empty class, in index order. -/
def dumpsOf (all_valid_colors : GraphColors) (property_results : List GraphColors)
    (idxs : List Nat) : List (String × String) :=
  idxs.filterMap (fun i =>
    if classColors all_valid_colors property_results i = ∅ then none
    else some (dumpEntryName property_results.length i,
      bddDumpContent (classColors all_valid_colors property_results i)))

/-- The dump entries produced by the whole classification loop: one per
non-empty class, in ascending index order. -/
def classDumpList (all_valid_colors : GraphColors) (property_results : List GraphColors) :
    List (String × String) :=
  dumpsOf all_valid_colors property_results (combinationIndices property_results.length)

/-- The full report text of write_class_report_and_dump_bdds as a pure
function of the inputs, given the text of the property section. -/
def fullReport (assertion_formulae : List String) (all_valid_colors : GraphColors)
    (propertySection : String) (property_results : List GraphColors) : String :=
  ((((assertion_formulae.foldl (fun r a => r ++ "# " ++ a ++ "\n")
      "### Assertion formulae\n\n")
    ++ toString (approxCardinality all_valid_colors) ++ " colors satisfy all assertions\n\n")
    ++ "### Property formulae individually\n\n")
    ++ propertySection ++ "### Classes\n\n")
    ++ reportBlocks all_valid_colors property_results
        (combinationIndices property_results.length)

/-- The content of the report entry written by write_empty_report. -/
def emptyReportText (assertion_formulae : List String) : String :=
  "### Assertion formulae\n" ++ "\n" ++
  String.join (assertion_formulae.map (fun a => "# " ++ a ++ "\n")) ++
  "0 colors satisfy all assertions\n" ++ "\n"

/-- A string contains the given complete line: it occurs terminated by a
newline and preceded by nothing or by a newline. -/
def containsLine (s line : String) : Prop :=
  ∃ pre post, s = pre ++ line ++ "\n" ++ post ∧ (pre = "" ∨ ∃ q, pre = q ++ "\n")

/-- The text of the report entry of a final container state. -/
def reportTextOf (st : ZipState) : String :=
  (st.entries.lookup "report.txt").getD ""

/-- Split a character list into the newline separated lines. -/
def splitLinesAux : List Char → List Char → List String
  | [], acc => [String.mk acc.reverse]
  | c :: rest, acc =>
      if c = '\n' then String.mk acc.reverse :: splitLinesAux rest []
      else splitLinesAux rest (c :: acc)

/-- The lines of the report entry of a final container state. -/
def reportLinesOf (st : ZipState) : List String :=
  splitLinesAux (reportTextOf st).data []

/-- Does this entry name have the bdd_dump prefix? -/
def isDumpEntryName (s : String) : Bool :=
  List.isPrefixOf "bdd_dump_".data s.data

/-- The names of the class dump entries of a final container state. -/
def dumpNamesOf (st : ZipState) : List String :=
  (st.entries.map Prod.fst).filter isDumpEntryName

/-! ### Lemmas about the bit vector codec -/

theorem foldl_set_spec (g : Nat → Bool) (m : Nat) (l : List Bool) (hl : l.length = m) :
    ∀ k : Nat, k ≤ m →
      ((List.range k).foldl (fun bits i => bits.set (m - i - 1) (g i)) l).length = m ∧
      ∀ p, p < m →
        ((List.range k).foldl (fun bits i => bits.set (m - i - 1) (g i)) l)[p]? =
          if m - k ≤ p then some (g (m - 1 - p)) else l[p]? := by
  intro k
  induction k with
  | zero =>
    intro _
    refine ⟨by simpa using hl, fun p hp => ?_⟩
    simp only [List.range_zero, List.foldl_nil]
    rw [if_neg (by omega)]
  | succ k ih =>
    intro hk
    have ihk := ih (by omega)
    rw [List.range_succ, List.foldl_append]
    simp only [List.foldl_cons, List.foldl_nil]
    refine ⟨by simp [ihk.1], fun p hp => ?_⟩
    by_cases hpk : m - k - 1 = p
    · subst hpk
      rw [List.getElem?_set_self (by rw [ihk.1]; omega)]
      have e1 : m - 1 - (m - k - 1) = k := by omega
      rw [if_pos (by omega), e1]
    · rw [List.getElem?_set_ne hpk, ihk.2 p hp]
      by_cases h1 : m - k ≤ p
      · rw [if_pos h1, if_pos (by omega)]
      · rw [if_neg h1, if_neg (by omega)]

theorem int_to_bool_vec_length (x n : Nat) : (int_to_bool_vec x n).length = n := by
  exact (foldl_set_spec (fun i => ((x >>> i) &&& 1) == 1) n (List.replicate n false)
    (by simp) n (Nat.le_refl n)).1

theorem shift_and_beq (x j : Nat) : (((x >>> j) &&& 1) == 1) = x.testBit j := by
  rw [Nat.shiftRight_eq_div_pow, Nat.and_one_is_mod, Nat.testBit_to_div_mod]
  rcases Nat.mod_two_eq_zero_or_one (x / 2 ^ j) with h | h <;> rw [h] <;> rfl

theorem int_to_bool_vec_getElem? (x n p : Nat) (hp : p < n) :
    (int_to_bool_vec x n)[p]? = some (x.testBit (n - 1 - p)) := by
  have h : (int_to_bool_vec x n)[p]? =
      if n - n ≤ p then some (((x >>> (n - 1 - p)) &&& 1) == 1)
      else (List.replicate n false)[p]? :=
    (foldl_set_spec (fun i => ((x >>> i) &&& 1) == 1) n (List.replicate n false)
      (by simp) n (Nat.le_refl n)).2 p hp
  rw [h, if_pos (by omega), shift_and_beq]

theorem int_to_bool_vec_getD (x n p : Nat) (hp : p < n) :
    (int_to_bool_vec x n).getD p false = x.testBit (n - 1 - p) := by
  rw [List.getD_eq_getElem?_getD, int_to_bool_vec_getElem? x n p hp]
  rfl

theorem int_to_bool_vec_succ (x n : Nat) :
    int_to_bool_vec x (n + 1) = x.testBit n :: int_to_bool_vec x n := by
  apply List.ext_getElem?
  intro p
  match p with
  | 0 =>
    rw [int_to_bool_vec_getElem? x (n + 1) 0 (by omega)]
    have e1 : n + 1 - 1 - 0 = n := by omega
    rw [e1, List.getElem?_cons_zero]
  | p + 1 =>
    by_cases hp : p < n
    · rw [int_to_bool_vec_getElem? x (n + 1) (p + 1) (by omega)]
      simp only [List.getElem?_cons_succ]
      rw [int_to_bool_vec_getElem? x n p hp]
      have e1 : n + 1 - 1 - (p + 1) = n - 1 - p := by omega
      rw [e1]
    · have h1 : (int_to_bool_vec x (n + 1)).length ≤ p + 1 := by
        rw [int_to_bool_vec_length]; omega
      have h2 : (x.testBit n :: int_to_bool_vec x n).length ≤ p + 1 := by
        simp [int_to_bool_vec_length]; omega
      rw [List.getElem?_eq_none h1, List.getElem?_eq_none h2]

theorem natOfBits_foldl_acc (l : List Bool) : ∀ a : Nat,
    l.foldl (fun acc b => 2 * acc + cond b 1 0) a = a * 2 ^ l.length + natOfBitsMSB l := by
  induction l with
  | nil => intro a; simp [natOfBitsMSB]
  | cons b t ih =>
    intro a
    simp only [List.foldl_cons, List.length_cons]
    rw [ih (2 * a + cond b 1 0)]
    have h2 : natOfBitsMSB (b :: t) = (2 * 0 + cond b 1 0) * 2 ^ t.length + natOfBitsMSB t := by
      show t.foldl _ (2 * 0 + cond b 1 0) = _
      exact ih (2 * 0 + cond b 1 0)
    rw [h2]
    ring

theorem natOfBitsMSB_cons (b : Bool) (t : List Bool) :
    natOfBitsMSB (b :: t) = cond b 1 0 * 2 ^ t.length + natOfBitsMSB t := by
  show t.foldl _ (2 * 0 + cond b 1 0) = _
  rw [natOfBits_foldl_acc]
  ring

theorem natOfBitsMSB_lt (l : List Bool) : natOfBitsMSB l < 2 ^ l.length := by
  induction l with
  | nil => simp [natOfBitsMSB]
  | cons b t ih =>
    rw [natOfBitsMSB_cons]
    have h1 : cond b 1 0 * 2 ^ t.length ≤ 2 ^ t.length := by
      cases b <;> simp
    simp only [List.length_cons, Nat.pow_succ]
    omega

theorem natOfBitsMSB_int_to_bool_vec (x : Nat) : ∀ n,
    natOfBitsMSB (int_to_bool_vec x n) = x % 2 ^ n := by
  intro n
  induction n with
  | zero => simp [int_to_bool_vec, natOfBitsMSB, Nat.mod_one]
  | succ n ih =>
    rw [int_to_bool_vec_succ, natOfBitsMSB_cons, int_to_bool_vec_length, ih]
    have hb : cond (x.testBit n) 1 0 = x / 2 ^ n % 2 := by
      rw [Nat.testBit_to_div_mod]
      rcases Nat.mod_two_eq_zero_or_one (x / 2 ^ n) with h | h <;> rw [h] <;> rfl
    rw [hb, Nat.mod_pow_succ]
    ring

theorem int_to_bool_vec_add_mul_pow : ∀ (n c r : Nat),
    int_to_bool_vec (c * 2 ^ n + r) n = int_to_bool_vec r n := by
  intro n
  induction n with
  | zero => intro c r; rfl
  | succ n ih =>
    intro c r
    have hX : c * 2 ^ (n + 1) + r = 2 * c * 2 ^ n + r := by ring
    rw [int_to_bool_vec_succ, int_to_bool_vec_succ]
    have hhead : (c * 2 ^ (n + 1) + r).testBit n = r.testBit n := by
      rw [hX, Nat.testBit_to_div_mod, Nat.testBit_to_div_mod]
      rw [Nat.add_comm (2 * c * 2 ^ n) r]
      rw [Nat.add_mul_div_right r (2 * c) (by positivity)]
      rw [Nat.mul_comm 2 c, Nat.add_mul_mod_self_right]
    have htail : int_to_bool_vec (c * 2 ^ (n + 1) + r) n = int_to_bool_vec r n := by
      rw [hX]
      exact ih (2 * c) r
    rw [hhead, htail]

theorem int_to_bool_vec_natOfBitsMSB : ∀ l : List Bool,
    int_to_bool_vec (natOfBitsMSB l) l.length = l := by
  intro l
  induction l with
  | nil => rfl
  | cons b t ih =>
    rw [List.length_cons, natOfBitsMSB_cons, int_to_bool_vec_succ]
    have hr := natOfBitsMSB_lt t
    have hhead : (cond b 1 0 * 2 ^ t.length + natOfBitsMSB t).testBit t.length = b := by
      rw [Nat.testBit_to_div_mod]
      rw [Nat.add_comm]
      rw [Nat.add_mul_div_right _ _ (by positivity : (0:Nat) < 2 ^ t.length)]
      rw [Nat.div_eq_of_lt hr]
      cases b <;> rfl
    have htail : int_to_bool_vec (cond b 1 0 * 2 ^ t.length + natOfBitsMSB t) t.length = t := by
      rw [int_to_bool_vec_add_mul_pow]
      exact ih
    rw [hhead, htail]

theorem binaryStringValue_bool_vec (l : List Bool) :
    binaryStringValue (bool_vec_to_string l) = natOfBitsMSB l := by
  show (l.map (fun x => if x then '1' else '0')).foldl
      (fun acc c => 2 * acc + (if c = '1' then 1 else 0)) 0 = _
  rw [List.foldl_map]
  unfold natOfBitsMSB
  congr 1
  funext acc b
  cases b <;> simp

theorem bool_vec_to_string_injective (l1 l2 : List Bool)
    (h : bool_vec_to_string l1 = bool_vec_to_string l2) : l1 = l2 := by
  have hd : l1.map (fun x => if x then '1' else '0') =
      l2.map (fun x => if x then '1' else '0') := congrArg String.data h
  have hinj : Function.Injective (fun x : Bool => if x then '1' else '0') := by
    intro a b hab
    cases a <;> cases b <;> simp_all
  exact List.map_injective_iff.mpr hinj hd

theorem binaryStringValue_classLabel (n i : Nat) (hi : i < 2 ^ n) :
    binaryStringValue (classLabel n i) = i := by
  rw [classLabel, binaryStringValue_bool_vec, natOfBitsMSB_int_to_bool_vec,
    Nat.mod_eq_of_lt hi]

theorem classLabel_injective (n i j : Nat) (hi : i < 2 ^ n) (hj : j < 2 ^ n)
    (h : classLabel n i = classLabel n j) : i = j := by
  have h2 := congrArg binaryStringValue h
  rw [binaryStringValue_classLabel n i hi, binaryStringValue_classLabel n j hj] at h2
  exact h2

/-! ### Membership in the class sets -/

theorem mem_categoryColors (x : Nat) :
    ∀ (props : List GraphColors) (v : List Bool) (B : GraphColors),
      v.length = props.length →
      (x ∈ categoryColors B props v ↔
        x ∈ B ∧ ∀ k, k < props.length →
          ((v.getD k false = true) ↔ x ∈ props.getD k ∅)) := by
  intro props
  induction props with
  | nil =>
    intro v B hv
    have hnil : v = [] := List.length_eq_zero.mp (by simpa using hv)
    subst hnil
    simp [categoryColors]
  | cons p ps ih =>
    intro v B hv
    match v with
    | [] => simp at hv
    | b :: bs =>
      have hbs : bs.length = ps.length := by simpa using hv
      have hstep : categoryColors B (p :: ps) (b :: bs)
          = categoryColors (if b = true then B ∩ p else B \ p) ps bs := by
        unfold categoryColors GraphColors.intersect GraphColors.minus
        cases b <;> simp [List.zip_cons_cons]
      rw [hstep, ih bs _ hbs]
      simp only [List.length_cons]
      constructor
      · rintro ⟨hxif, hrest⟩
        cases b
        · simp only [Bool.false_eq_true, if_false, Finset.mem_sdiff] at hxif
          refine ⟨hxif.1, fun k hk => ?_⟩
          match k with
          | 0 => simp [hxif.2]
          | k + 1 =>
            simp only [List.getD_cons_succ]
            exact hrest k (by omega)
        · simp only [if_true, Finset.mem_inter] at hxif
          refine ⟨hxif.1, fun k hk => ?_⟩
          match k with
          | 0 => simp [hxif.2]
          | k + 1 =>
            simp only [List.getD_cons_succ]
            exact hrest k (by omega)
      · rintro ⟨hxB, hall⟩
        have h0 := hall 0 (by omega)
        simp only [List.getD_cons_zero] at h0
        refine ⟨?_, fun k hk => ?_⟩
        · cases b
          · simp only [Bool.false_eq_true, if_false, Finset.mem_sdiff]
            refine ⟨hxB, fun hxp => ?_⟩
            have hcontr := h0.mpr hxp
            simp at hcontr
          · simp only [if_true, Finset.mem_inter]
            exact ⟨hxB, h0.mp rfl⟩
        · have hs := hall (k + 1) (by omega)
          simpa using hs

theorem mem_classColors (x : Nat) (B : GraphColors) (props : List GraphColors) (i : Nat) :
    x ∈ classColors B props i ↔
      x ∈ B ∧ ∀ k, k < props.length →
        (((int_to_bool_vec i props.length).getD k false = true) ↔ x ∈ props.getD k ∅) := by
  exact mem_categoryColors x props (int_to_bool_vec i props.length) B
    (int_to_bool_vec_length i props.length)

theorem classColors_subset (B : GraphColors) (props : List GraphColors) (i : Nat) :
    classColors B props i ⊆ B := by
  intro x hx
  exact ((mem_classColors x B props i).mp hx).1

/-- C1: for every baseline set and every list of at most 30 property sets, the
2 ^ N class sets computed by write_class_report_and_dump_bdds (each derived
from the baseline by intersecting with property j where the validity bit is 1
and subtracting it where it is 0) are pairwise disjoint and their union is
exactly the baseline. -/
theorem classification_partition (B : GraphColors) (props : List GraphColors)
    (h30 : props.length ≤ 30) :
    (∀ i j, i < 2 ^ props.length → j < 2 ^ props.length → i ≠ j →
      classColors B props i ∩ classColors B props j = ∅) ∧
    (Finset.range (2 ^ props.length)).biUnion (fun i => classColors B props i) = B := by
  constructor
  · intro i j hi hj hij
    rw [Finset.eq_empty_iff_forall_not_mem]
    intro x hx
    rw [Finset.mem_inter] at hx
    have hxi := (mem_classColors x B props i).mp hx.1
    have hxj := (mem_classColors x B props j).mp hx.2
    apply hij
    have hvec : int_to_bool_vec i props.length = int_to_bool_vec j props.length := by
      apply List.ext_getElem?
      intro k
      by_cases hk : k < props.length
      · have h1 := hxi.2 k hk
        have h2 := hxj.2 k hk
        have hb : (int_to_bool_vec i props.length).getD k false
            = (int_to_bool_vec j props.length).getD k false := by
          by_cases hp : x ∈ props.getD k ∅
          · rw [h1.mpr hp, h2.mpr hp]
          · cases hgi : (int_to_bool_vec i props.length).getD k false with
            | true => exact absurd (h1.mp hgi) hp
            | false =>
              cases hgj : (int_to_bool_vec j props.length).getD k false with
              | true => exact absurd (h2.mp hgj) hp
              | false => rfl
        rw [int_to_bool_vec_getD i _ k hk, int_to_bool_vec_getD j _ k hk] at hb
        rw [int_to_bool_vec_getElem? i _ k hk, int_to_bool_vec_getElem? j _ k hk, hb]
      · rw [List.getElem?_eq_none (by rw [int_to_bool_vec_length]; omega),
          List.getElem?_eq_none (by rw [int_to_bool_vec_length]; omega)]
    have hmod := congrArg natOfBitsMSB hvec
    rw [natOfBitsMSB_int_to_bool_vec, natOfBitsMSB_int_to_bool_vec,
      Nat.mod_eq_of_lt hi, Nat.mod_eq_of_lt hj] at hmod
    exact hmod
  · apply Finset.ext
    intro x
    rw [Finset.mem_biUnion]
    constructor
    · rintro ⟨i, _, hxi⟩
      exact classColors_subset B props i hxi
    · intro hxB
      refine ⟨natOfBitsMSB (props.map (fun p => decide (x ∈ p))), ?_, ?_⟩
      · rw [Finset.mem_range]
        have h := natOfBitsMSB_lt (props.map (fun p => decide (x ∈ p)))
        simpa using h
      · rw [mem_classColors]
        refine ⟨hxB, fun k hk => ?_⟩
        have hlen : (props.map (fun p => decide (x ∈ p))).length = props.length := by simp
        have henc : int_to_bool_vec (natOfBitsMSB (props.map (fun p => decide (x ∈ p))))
            props.length = props.map (fun p => decide (x ∈ p)) := by
          conv_lhs => rw [← hlen]
          exact int_to_bool_vec_natOfBitsMSB _
        rw [henc]
        have e1 : props.getD k ∅ = props[k] := by
          rw [List.getD_eq_getElem?_getD, List.getElem?_eq_getElem hk]
          rfl
        have e2 : (props.map (fun p => decide (x ∈ p))).getD k false
            = decide (x ∈ props[k]) := by
          rw [List.getD_eq_getElem?_getD, List.getElem?_map, List.getElem?_eq_getElem hk]
          rfl
        rw [e2, e1]
        simp

/-- Witness for classification_partition at a concrete baseline and one
property set. -/
theorem classification_partition_witness :
    (classColors {0, 1, 2} [{0, 1}] 0 ∩ classColors {0, 1, 2} [{0, 1}] 1 = ∅) ∧
    (Finset.range (2 ^ 1)).biUnion (fun i => classColors {0, 1, 2} [{0, 1}] i)
      = {0, 1, 2} := by
  have h := classification_partition {0, 1, 2} [{0, 1}] (by decide)
  exact ⟨h.1 0 1 (by decide) (by decide) (by decide), h.2⟩

/-- C2: for N at most 30 and i below 2 ^ N, int_to_bool_vec gives a vector of
length exactly N, reading the 1/0 string produced by bool_vec_to_string as a
binary number (most significant bit first) reproduces i, and the label
determines its generating index uniquely on that range. -/
theorem label_codec_bijective (N i : Nat) (hN : N ≤ 30) (hi : i < 2 ^ N) :
    (int_to_bool_vec i N).length = N ∧
    binaryStringValue (bool_vec_to_string (int_to_bool_vec i N)) = i ∧
    ∀ j, j < 2 ^ N →
      bool_vec_to_string (int_to_bool_vec j N) = bool_vec_to_string (int_to_bool_vec i N) →
      j = i := by
  refine ⟨int_to_bool_vec_length i N, binaryStringValue_classLabel N i hi, ?_⟩
  intro j hj hlab
  exact classLabel_injective N j i hj hi hlab

/-- Witness for label_codec_bijective at N = 3, i = 5. -/
theorem label_codec_bijective_witness :
    (int_to_bool_vec 5 3).length = 3 ∧
    binaryStringValue (bool_vec_to_string (int_to_bool_vec 5 3)) = 5 ∧
    ∀ j, j < 2 ^ 3 →
      bool_vec_to_string (int_to_bool_vec j 3) = bool_vec_to_string (int_to_bool_vec 5 3) →
      j = 5 :=
  label_codec_bijective 3 5 (by decide) (by decide)

/-! ### Characterizing a successful run -/

theorem string_join_acc (l : List String) : ∀ a : String,
    l.foldl (fun r s => r ++ s) a = a ++ String.join l := by
  induction l with
  | nil => intro a; simp [String.join]
  | cons x t ih =>
    intro a
    simp only [List.foldl_cons]
    rw [ih (a ++ x)]
    have h2 : String.join (x :: t) = ("" ++ x) ++ String.join t := by
      show t.foldl _ ("" ++ x) = _
      exact ih ("" ++ x)
    rw [h2]
    simp [String.append_assoc]

theorem string_join_cons (x : String) (t : List String) :
    String.join (x :: t) = x ++ String.join t := by
  show t.foldl _ ("" ++ x) = _
  rw [string_join_acc]
  simp

theorem categoryColors_int_vec (B : GraphColors) (props : List GraphColors) (i : Nat) :
    categoryColors B props (int_to_bool_vec i props.length) = classColors B props i := rfl

theorem bool_vec_label (n i : Nat) :
    bool_vec_to_string (int_to_bool_vec i n) = classLabel n i := rfl

theorem dumpName_eq (n i : Nat) :
    "bdd_dump_" ++ classLabel n i ++ ".txt" = dumpEntryName n i := rfl

theorem reportBlocks_nil (B : GraphColors) (props : List GraphColors) :
    reportBlocks B props [] = "" := rfl

theorem reportBlocks_cons (B : GraphColors) (props : List GraphColors) (i : Nat)
    (rest : List Nat) :
    reportBlocks B props (i :: rest) =
      ("# " ++ classLabel props.length i ++ "\n" ++
       toString (approxCardinality (classColors B props i)) ++ " colors in this category\n\n")
      ++ reportBlocks B props rest := by
  unfold reportBlocks
  rw [List.map_cons, string_join_cons]

theorem dumpsOf_nil (B : GraphColors) (props : List GraphColors) :
    dumpsOf B props [] = [] := rfl

theorem dumpsOf_cons_empty (B : GraphColors) (props : List GraphColors) (i : Nat)
    (rest : List Nat) (h : classColors B props i = ∅) :
    dumpsOf B props (i :: rest) = dumpsOf B props rest := by
  unfold dumpsOf
  rw [List.filterMap_cons, if_pos h]

theorem dumpsOf_cons_nonempty (B : GraphColors) (props : List GraphColors) (i : Nat)
    (rest : List Nat) (h : ¬ classColors B props i = ∅) :
    dumpsOf B props (i :: rest) =
      (dumpEntryName props.length i, bddDumpContent (classColors B props i))
        :: dumpsOf B props rest := by
  unfold dumpsOf
  rw [List.filterMap_cons, if_neg h]

theorem classLoop_ok (env : FsEnv) (B : GraphColors) (props : List GraphColors)
    (hsf : ∀ k, env.startFileOk k = true) (hzw : ∀ k, env.zipWriteOk k = true) :
    ∀ (idxs : List Nat) (st : ZipState) (report : String),
      st.current.isSome = true →
      ∃ st2, classLoop env B props idxs st report
          = Except.ok (st2, report ++ reportBlocks B props idxs) ∧
        st2.current.isSome = true ∧
        st2.entries ++ st2.current.toList
          = st.entries ++ st.current.toList ++ dumpsOf B props idxs ∧
        st2.events = st.events ++ (dumpsOf B props idxs).map (fun e => ZipEvent.startFile e.1) ∧
        st2.dirsEnsured = st.dirsEnsured := by
  intro idxs
  induction idxs with
  | nil =>
    intro st report hcur
    refine ⟨st, ?_, hcur, by simp [dumpsOf], by simp [dumpsOf], rfl⟩
    simp [classLoop, reportBlocks, String.join]
  | cons i rest ih =>
    intro st report hcur
    by_cases hemp : classColors B props i = ∅
    · have hcond : GraphColors.isEmptySet (classColors B props i) = true := by
        rw [hemp]; rfl
      have hstep : classLoop env B props (i :: rest) st report
          = classLoop env B props rest st
            (report ++ "# " ++ classLabel props.length i ++ "\n" ++
             toString (approxCardinality (classColors B props i)) ++
             " colors in this category\n\n") := by
        simp only [classLoop, categoryColors_int_vec, bool_vec_label, hcond, if_true]
      rw [hstep]
      obtain ⟨st2, h1, h2, h3, h4, h5⟩ := ih st _ hcur
      refine ⟨st2, ?_, h2, ?_, ?_, h5⟩
      · rw [h1, reportBlocks_cons]
        simp [String.append_assoc]
      · rw [h3, dumpsOf_cons_empty B props i rest hemp]
      · rw [h4, dumpsOf_cons_empty B props i rest hemp]
    · have hcond : GraphColors.isEmptySet (classColors B props i) = false := by
        simp [GraphColors.isEmptySet, hemp]
      have hsf0 := hsf st.startCount
      have hzw0 := hzw st.writeCount
      have hstep : classLoop env B props (i :: rest) st report
          = classLoop env B props rest
            { events := st.events ++ [ZipEvent.startFile (dumpEntryName props.length i)],
              entries := st.entries ++ st.current.toList,
              current := some (dumpEntryName props.length i,
                bddDumpContent (classColors B props i)),
              startCount := st.startCount + 1,
              writeCount := st.writeCount + 1,
              dirsEnsured := st.dirsEnsured }
            (report ++ "# " ++ classLabel props.length i ++ "\n" ++
             toString (approxCardinality (classColors B props i)) ++
             " colors in this category\n\n") := by
        simp only [classLoop, categoryColors_int_vec, bool_vec_label, hcond,
          Bool.false_eq_true, if_false, zipStartFile, hsf0, if_true, zipWrite, dumpName_eq]
        simp [hzw0]
      rw [hstep]
      obtain ⟨st2, h1, h2, h3, h4, h5⟩ := ih
        { events := st.events ++ [ZipEvent.startFile (dumpEntryName props.length i)],
          entries := st.entries ++ st.current.toList,
          current := some (dumpEntryName props.length i,
            bddDumpContent (classColors B props i)),
          startCount := st.startCount + 1,
          writeCount := st.writeCount + 1,
          dirsEnsured := st.dirsEnsured }
        (report ++ "# " ++ classLabel props.length i ++ "\n" ++
          toString (approxCardinality (classColors B props i)) ++
          " colors in this category\n\n") rfl
      refine ⟨st2, ?_, h2, ?_, ?_, by rw [h5]⟩
      · rw [h1, reportBlocks_cons]
        simp [String.append_assoc]
      · rw [h3, dumpsOf_cons_nonempty B props i rest hemp]
        simp [List.append_assoc]
      · rw [h4, dumpsOf_cons_nonempty B props i rest hemp]
        simp

theorem except_bind_ok {α β γ : Type} (a : α) (f : α → Except γ β) :
    (Except.ok a : Except γ α) >>= f = f a := rfl

theorem fsCreateDirAll_ok (env : FsEnv) (st : ZipState) (p : String)
    (h : env.createDirOk = true) :
    fsCreateDirAll env st p = Except.ok
      { st with events := st.events ++ [ZipEvent.createDirAll p], dirsEnsured := true } := by
  simp only [fsCreateDirAll]
  rw [if_pos h]

theorem fsCreateFile_ok (env : FsEnv) (st : ZipState) (path : String)
    (hc : env.createFileOk = true) (hd : st.dirsEnsured = true) :
    fsCreateFile env st path = Except.ok
      { st with events := st.events ++ [ZipEvent.createFile path] } := by
  simp only [fsCreateFile]
  rw [if_pos]
  rw [hc, hd]
  simp

theorem zipStartFile_ok (env : FsEnv) (st : ZipState) (entryName : String)
    (h : env.startFileOk st.startCount = true) :
    zipStartFile env st entryName = Except.ok
      { events := st.events ++ [ZipEvent.startFile entryName],
        entries := st.entries ++ st.current.toList,
        current := some (entryName, ""),
        startCount := st.startCount + 1,
        writeCount := st.writeCount,
        dirsEnsured := st.dirsEnsured } := by
  simp only [zipStartFile]
  rw [if_pos h]

theorem zipWrite_ok (env : FsEnv) (st : ZipState) (data : String)
    (h : env.zipWriteOk st.writeCount = true) :
    zipWrite env st data = Except.ok
      { st with
        writeCount := st.writeCount + 1,
        current := st.current.map (fun e => (e.1, e.2 ++ data)) } := by
  simp only [zipWrite]
  rw [if_pos h]

theorem zipFinish_ok (env : FsEnv) (st : ZipState) (h : env.finishOk = true) :
    zipFinish env st = Except.ok
      { st with
        events := st.events ++ [ZipEvent.finishArchive],
        entries := st.entries ++ st.current.toList,
        current := none } := by
  simp only [zipFinish]
  rw [if_pos h]

theorem propertyLines_some (named : List (String × String)) :
    ∀ results : List GraphColors, named.length ≤ results.length →
      ∃ s, propertyLines named results = some s := by
  induction named with
  | nil => intro results _; exact ⟨"", rfl⟩
  | cons np rest ih =>
    intro results hlen
    match results with
    | [] => simp at hlen
    | r :: rs =>
      obtain ⟨s, hs⟩ := ih rs (by simpa using hlen)
      refine ⟨"# " ++ np.1 ++ "  |  " ++ np.2 ++ "\n" ++
        toString (approxCardinality r) ++ " colors satisfy this property\n\n" ++ s, ?_⟩
      simp [propertyLines, hs]

theorem runClass_ok (env : FsEnv) (hAll : env.allOk)
    (assertion_formulae : List String) (all_valid_colors : GraphColors)
    (named_property_formulae : List (String × String)) (property_results : List GraphColors)
    (archive_name : String) (num_hctl_vars : Nat) (pd propSec : String)
    (hp : pathParent archive_name = some pd)
    (hsec : propertyLines named_property_formulae property_results = some propSec)
    (h31 : property_results.length < 31) :
    ∃ st, runClass env assertion_formulae all_valid_colors named_property_formulae
        property_results archive_name num_hctl_vars = Except.ok st ∧
      st.entries = ("metadata.txt", toString num_hctl_vars ++ "\n")
          :: classDumpList all_valid_colors property_results
          ++ [("report.txt", fullReport assertion_formulae all_valid_colors propSec
                property_results)] ∧
      st.events = [ZipEvent.createDirAll pd, ZipEvent.createFile archive_name,
          ZipEvent.startFile "metadata.txt"]
          ++ (classDumpList all_valid_colors property_results).map
              (fun e => ZipEvent.startFile e.1)
          ++ [ZipEvent.startFile "report.txt", ZipEvent.finishArchive] ∧
      st.current = none := by
  obtain ⟨hcd, hcf, hsf, hzw, hfin⟩ := hAll
  obtain ⟨st2, hl1, hl2, hl3, hl4, hl5⟩ :=
    classLoop_ok env all_valid_colors property_results hsf hzw
      (combinationIndices property_results.length)
      { events := [ZipEvent.createDirAll pd, ZipEvent.createFile archive_name,
          ZipEvent.startFile "metadata.txt"],
        entries := [], current := some ("metadata.txt", toString num_hctl_vars ++ "\n"),
        startCount := 1, writeCount := 1, dirsEnsured := true }
      ((((assertion_formulae.foldl (fun r a => r ++ "# " ++ a ++ "\n")
          "### Assertion formulae\n\n")
        ++ toString (approxCardinality all_valid_colors) ++ " colors satisfy all assertions\n\n")
        ++ "### Property formulae individually\n\n")
        ++ propSec ++ "### Classes\n\n") rfl
  refine ⟨{ events := st2.events ++ [ZipEvent.startFile "report.txt"] ++ [ZipEvent.finishArchive],
            entries := st2.entries ++ st2.current.toList
              ++ [("report.txt", fullReport assertion_formulae all_valid_colors propSec
                    property_results)],
            current := none,
            startCount := st2.startCount + 1,
            writeCount := st2.writeCount + 1,
            dirsEnsured := st2.dirsEnsured }, ?_, ?_, ?_, rfl⟩
  · simp only [runClass, hp, except_bind_ok, fsCreateDirAll_ok, fsCreateFile_ok,
      zipStartFile_ok, zipWrite_ok, zipFinish_ok, hcd, hcf, hsf, hzw, hfin, hsec, h31,
      if_true, ZipState.init, Option.toList, Option.map, List.nil_append, Nat.zero_add,
      List.cons_append, String.empty_append]
    rw [hl1]
    simp only [except_bind_ok, zipStartFile_ok, zipWrite_ok, zipFinish_ok, hsf, hzw, hfin,
      Option.toList, Option.map, String.empty_append]
    simp [fullReport]
  · rw [hl3]
    simp [classDumpList]
  · rw [hl4]
    simp [classDumpList]

theorem fsCreateFile_okExists (env : FsEnv) (st : ZipState) (path : String)
    (hc : env.createFileOk = true) (he : env.dirExists = true) :
    fsCreateFile env st path = Except.ok
      { st with events := st.events ++ [ZipEvent.createFile path] } := by
  simp only [fsCreateFile]
  rw [if_pos]
  rw [hc, he]
  simp

theorem writeAssertionLines_ok (env : FsEnv) (hzw : ∀ k, env.zipWriteOk k = true) :
    ∀ (l : List String) (st : ZipState) (cname ccont : String),
      st.current = some (cname, ccont) →
      writeAssertionLines env l st = Except.ok
        { st with
          writeCount := st.writeCount + l.length,
          current := some (cname,
            ccont ++ String.join (l.map (fun a => "# " ++ a ++ "\n"))) } := by
  intro l
  induction l with
  | nil =>
    intro st cname ccont hcur
    simp only [writeAssertionLines, List.length_nil, Nat.add_zero, List.map_nil]
    rw [show String.join [] = "" from rfl, String.append_empty, ← hcur]
  | cons a rest ih =>
    intro st cname ccont hcur
    simp only [writeAssertionLines]
    rw [zipWrite_ok env st _ (hzw _)]
    simp only [except_bind_ok, hcur, Option.map_some]
    rw [ih _ cname (ccont ++ ("# " ++ a ++ "\n")) rfl]
    simp only [List.length_cons, List.map_cons, string_join_cons]
    congr 2 <;> first
      | omega
      | rw [String.append_assoc]

theorem runEmpty_ok (env : FsEnv) (hAll : env.allOk) (hde : env.dirExists = true)
    (assertion_formulae : List String) (archive_name : String) :
    ∃ st, runEmpty env assertion_formulae archive_name = Except.ok st ∧
      st.entries = [("report.txt", emptyReportText assertion_formulae)] ∧
      st.events = [ZipEvent.createFile archive_name, ZipEvent.startFile "report.txt",
        ZipEvent.finishArchive] ∧
      st.current = none := by
  obtain ⟨hcd, hcf, hsf, hzw, hfin⟩ := hAll
  have hchain : runEmpty env assertion_formulae archive_name = Except.ok
      { events := [ZipEvent.createFile archive_name, ZipEvent.startFile "report.txt",
          ZipEvent.finishArchive],
        entries := [("report.txt", emptyReportText assertion_formulae)],
        current := none,
        startCount := 1,
        writeCount := 1 + 1 + assertion_formulae.length + 1 + 1,
        dirsEnsured := false } := by
    simp only [runEmpty, fsCreateFile_okExists env _ _ hcf hde, except_bind_ok,
      zipStartFile_ok, zipWrite_ok, zipFinish_ok, hsf, hzw, hfin, ZipState.init,
      Option.toList, Option.map, List.nil_append, Nat.zero_add, List.cons_append,
      String.empty_append, Option.map_some]
    rw [writeAssertionLines_ok env hzw assertion_formulae _ "report.txt"
      ("### Assertion formulae\n" ++ "\n") rfl]
    simp only [except_bind_ok, zipWrite_ok, hzw, zipFinish_ok, hfin, Option.map_some,
      Option.toList]
    simp [emptyReportText, String.append_assoc]
  exact ⟨_, hchain, rfl, rfl, rfl⟩

theorem assertion_join_ends (l : List String) :
    String.join (l.map (fun a => "# " ++ a ++ "\n")) = "" ∨
    ∃ q, String.join (l.map (fun a => "# " ++ a ++ "\n")) = q ++ "\n" := by
  induction l with
  | nil => left; rfl
  | cons a t ih =>
    right
    rw [List.map_cons, string_join_cons]
    rcases ih with h | ⟨q, h⟩
    · rw [h, String.append_empty]
      exact ⟨"# " ++ a, rfl⟩
    · rw [h]
      exact ⟨"# " ++ a ++ "\n" ++ q, by simp [String.append_assoc]⟩

/-- C9: for every assertion list and path, under an environment in which the
container operations succeed and the target directory exists, write_empty_report
returns successfully with a container whose only entry is report.txt, that entry
contains the literal line 0 colors satisfy all assertions, and every entry name
is report.txt (in particular no bdd_dump entry exists). -/
theorem write_empty_report_spec (env : FsEnv) (assertion_formulae : List String)
    (archive_name : String) (hAll : env.allOk) (hde : env.dirExists = true) :
    (write_empty_report env assertion_formulae archive_name).1 = RunResult.ok ∧
    (write_empty_report env assertion_formulae archive_name).2.entries
      = [("report.txt", emptyReportText assertion_formulae)] ∧
    containsLine (emptyReportText assertion_formulae) "0 colors satisfy all assertions" ∧
    ∀ e ∈ (write_empty_report env assertion_formulae archive_name).2.entries,
      e.1 = "report.txt" := by
  obtain ⟨st, h1, h2, h3, h4⟩ := runEmpty_ok env hAll hde assertion_formulae archive_name
  have hrun : write_empty_report env assertion_formulae archive_name = (RunResult.ok, st) := by
    unfold write_empty_report
    rw [h1]
  rw [hrun]
  refine ⟨rfl, h2, ?_, ?_⟩
  · unfold containsLine
    refine ⟨"### Assertion formulae\n" ++ "\n"
        ++ String.join (assertion_formulae.map (fun a => "# " ++ a ++ "\n")), "\n", ?_, ?_⟩
    · unfold emptyReportText
      rw [show ("0 colors satisfy all assertions\n" : String)
          = "0 colors satisfy all assertions" ++ "\n" by decide]
      simp [String.append_assoc]
    · right
      rcases assertion_join_ends assertion_formulae with h | ⟨q, h⟩
      · rw [h, String.append_empty]
        exact ⟨"### Assertion formulae\n", rfl⟩
      · rw [h]
        refine ⟨"### Assertion formulae\n" ++ "\n" ++ q, ?_⟩
        simp [String.append_assoc]
  · intro e he
    rw [h2] at he
    simp only [List.mem_singleton] at he
    rw [he]

/-- Witness for write_empty_report_spec at a concrete environment and inputs. -/
theorem write_empty_report_spec_witness :
    (write_empty_report okEnv ["x"] "out.zip").1 = RunResult.ok ∧
    (write_empty_report okEnv ["x"] "out.zip").2.entries
      = [("report.txt", emptyReportText ["x"])] ∧
    containsLine (emptyReportText ["x"]) "0 colors satisfy all assertions" ∧
    ∀ e ∈ (write_empty_report okEnv ["x"] "out.zip").2.entries, e.1 = "report.txt" :=
  write_empty_report_spec okEnv ["x"] "out.zip"
    ⟨rfl, rfl, fun _ => rfl, fun _ => rfl, rfl⟩ rfl

theorem assertion_fold (l : List String) : ∀ r0 : String,
    l.foldl (fun r a => r ++ "# " ++ a ++ "\n") r0
      = r0 ++ String.join (l.map (fun a => "# " ++ a ++ "\n")) := by
  induction l with
  | nil => intro r0; simp [String.join]
  | cons a t ih =>
    intro r0
    simp only [List.foldl_cons, List.map_cons, string_join_cons]
    rw [ih]
    simp [String.append_assoc]

theorem classLabel_length (n i : Nat) : (classLabel n i).length = n := by
  show (List.map _ (int_to_bool_vec i n)).length = n
  rw [List.length_map, int_to_bool_vec_length]

theorem dumpEntryName_length (n i : Nat) : (dumpEntryName n i).length = n + 13 := by
  unfold dumpEntryName
  rw [String.length_append, String.length_append, classLabel_length,
    show ("bdd_dump_" : String).length = 9 from rfl,
    show (".txt" : String).length = 4 from rfl]
  omega

theorem dumpEntryName_ne_metadata (n i : Nat) : dumpEntryName n i ≠ "metadata.txt" := by
  intro h
  have hl := congrArg String.length h
  rw [dumpEntryName_length, show ("metadata.txt" : String).length = 12 from rfl] at hl
  omega

theorem dumpEntryName_ne_report (n i : Nat) : dumpEntryName n i ≠ "report.txt" := by
  intro h
  have hl := congrArg String.length h
  rw [dumpEntryName_length, show ("report.txt" : String).length = 10 from rfl] at hl
  omega

theorem dumpEntryName_injective (n i j : Nat) (hi : i < 2 ^ n) (hj : j < 2 ^ n)
    (h : dumpEntryName n i = dumpEntryName n j) : i = j := by
  apply classLabel_injective n i j hi hj
  have hd := congrArg String.data h
  simp only [dumpEntryName, String.data_append, List.append_assoc] at hd
  exact String.ext (List.append_cancel_right (List.append_cancel_left hd))

theorem lookup_append_right (key : String) (l l2 : List (String × String))
    (h : ∀ e ∈ l, (key == e.1) = false) :
    (l ++ l2).lookup key = l2.lookup key := by
  induction l with
  | nil => rfl
  | cons e t ih =>
    obtain ⟨k, v⟩ := e
    rw [List.cons_append, List.lookup_cons, h (k, v) (by simp)]
    exact ih (fun x hx => h x (by simp [hx]))

theorem mem_dumpsOf (B : GraphColors) (props : List GraphColors) (idxs : List Nat)
    (e : String × String) (he : e ∈ dumpsOf B props idxs) :
    ∃ i ∈ idxs, ¬ classColors B props i = ∅ ∧
      e = (dumpEntryName props.length i, bddDumpContent (classColors B props i)) := by
  unfold dumpsOf at he
  rw [List.mem_filterMap] at he
  obtain ⟨i, hi, hsome⟩ := he
  by_cases hemp : classColors B props i = ∅
  · rw [if_pos hemp] at hsome
    cases hsome
  · rw [if_neg hemp] at hsome
    injection hsome with hsome
    exact ⟨i, hi, hemp, hsome.symm⟩

theorem isDumpEntryName_dump (n i : Nat) : isDumpEntryName (dumpEntryName n i) = true := by
  unfold isDumpEntryName dumpEntryName
  rw [List.isPrefixOf_iff_prefix]
  simp only [String.data_append, List.append_assoc]
  exact List.prefix_append _ _

theorem write_class_ok (env : FsEnv) (hAll : env.allOk)
    (assertion_formulae : List String) (all_valid_colors : GraphColors)
    (named_property_formulae : List (String × String)) (property_results : List GraphColors)
    (archive_name : String) (num_hctl_vars : Nat) (pd propSec : String)
    (hp : pathParent archive_name = some pd)
    (hsec : propertyLines named_property_formulae property_results = some propSec)
    (h31 : property_results.length < 31) :
    (write_class_report_and_dump_bdds env assertion_formulae all_valid_colors
        named_property_formulae property_results archive_name num_hctl_vars).1
      = RunResult.ok ∧
    (write_class_report_and_dump_bdds env assertion_formulae all_valid_colors
        named_property_formulae property_results archive_name num_hctl_vars).2.entries
      = ("metadata.txt", toString num_hctl_vars ++ "\n")
          :: classDumpList all_valid_colors property_results
          ++ [("report.txt", fullReport assertion_formulae all_valid_colors propSec
                property_results)] ∧
    (write_class_report_and_dump_bdds env assertion_formulae all_valid_colors
        named_property_formulae property_results archive_name num_hctl_vars).2.events
      = [ZipEvent.createDirAll pd, ZipEvent.createFile archive_name,
          ZipEvent.startFile "metadata.txt"]
          ++ (classDumpList all_valid_colors property_results).map
              (fun e => ZipEvent.startFile e.1)
          ++ [ZipEvent.startFile "report.txt", ZipEvent.finishArchive] := by
  obtain ⟨st, h1, h2, h3, h4⟩ := runClass_ok env hAll assertion_formulae all_valid_colors
    named_property_formulae property_results archive_name num_hctl_vars pd propSec
    hp hsec h31
  unfold write_class_report_and_dump_bdds
  rw [h1]
  exact ⟨rfl, h2, h3⟩

/-- C4 (amended): in the report text, the first section is the line
### Assertion formulae followed by a blank line, then one line per assertion
prefixed with the two characters hash and space, then the approximate
cardinality of the baseline (zero decimal places) followed by the literal
colors satisfy all assertions, then a blank line; the report entry of a
successful run starts with exactly this section. -/
theorem report_first_section (env : FsEnv) (assertion_formulae : List String)
    (all_valid_colors : GraphColors) (named_property_formulae : List (String × String))
    (property_results : List GraphColors) (archive_name : String) (num_hctl_vars : Nat)
    (pd propSec : String) (hAll : env.allOk) (hp : pathParent archive_name = some pd)
    (hsec : propertyLines named_property_formulae property_results = some propSec)
    (h31 : property_results.length < 31) :
    ∃ rest,
      ("report.txt",
        "### Assertion formulae\n" ++ "\n"
          ++ String.join (assertion_formulae.map (fun a => "# " ++ a ++ "\n"))
          ++ toString (approxCardinality all_valid_colors)
          ++ " colors satisfy all assertions\n\n" ++ rest)
        ∈ (write_class_report_and_dump_bdds env assertion_formulae all_valid_colors
            named_property_formulae property_results archive_name num_hctl_vars).2.entries := by
  obtain ⟨hok, hent, hev⟩ := write_class_ok env hAll assertion_formulae all_valid_colors
    named_property_formulae property_results archive_name num_hctl_vars pd propSec
    hp hsec h31
  refine ⟨"### Property formulae individually\n\n" ++ propSec ++ "### Classes\n\n"
    ++ reportBlocks all_valid_colors property_results
        (combinationIndices property_results.length), ?_⟩
  rw [hent]
  have heq : "### Assertion formulae\n" ++ "\n"
        ++ String.join (assertion_formulae.map (fun a => "# " ++ a ++ "\n"))
        ++ toString (approxCardinality all_valid_colors)
        ++ " colors satisfy all assertions\n\n"
        ++ ("### Property formulae individually\n\n" ++ propSec ++ "### Classes\n\n"
            ++ reportBlocks all_valid_colors property_results
                (combinationIndices property_results.length))
      = fullReport assertion_formulae all_valid_colors propSec property_results := by
    unfold fullReport
    rw [assertion_fold]
    rw [show ("### Assertion formulae\n\n" : String)
        = "### Assertion formulae\n" ++ "\n" by decide]
    simp only [String.append_assoc]
  rw [heq]
  simp

/-- Witness for report_first_section at a concrete environment and inputs. -/
theorem report_first_section_witness :
    ∃ rest,
      ("report.txt",
        "### Assertion formulae\n" ++ "\n"
          ++ String.join (["a"].map (fun a => "# " ++ a ++ "\n"))
          ++ toString (approxCardinality {0})
          ++ " colors satisfy all assertions\n\n" ++ rest)
        ∈ (write_class_report_and_dump_bdds okEnv ["a"] {0} [] [] "d/out.zip" 1).2.entries :=
  report_first_section okEnv ["a"] {0} [] [] "d/out.zip" 1 "d" ""
    ⟨rfl, rfl, fun _ => rfl, fun _ => rfl, rfl⟩ (by decide) rfl (by decide)

/-- Counterexample to C4 as stated: the report of a run on the assertion list
containing just the string a has first line ### Assertion formulae (not a line
reading Assertion formulae), a blank line follows the header, and the assertion
appears only in the modified form with a hash and space prefix, never as the
unmodified line a. -/
theorem report_first_section_counterexample :
    reportLinesOf (write_class_report_and_dump_bdds okEnv ["a"] {0} [] [] "d/out.zip" 1).2
      = ["### Assertion formulae", "", "# a", "1 colors satisfy all assertions", "",
         "### Property formulae individually", "", "### Classes", "", "# ",
         "1 colors in this category", "", ""] ∧
    "a" ∉ reportLinesOf
      (write_class_report_and_dump_bdds okEnv ["a"] {0} [] [] "d/out.zip" 1).2 ∧
    "Assertion formulae" ∉ reportLinesOf
      (write_class_report_and_dump_bdds okEnv ["a"] {0} [] [] "d/out.zip" 1).2 := by
  refine ⟨?_, by decide, by decide⟩
  decide

theorem reportTextOf_write_class (env : FsEnv) (hAll : env.allOk)
    (assertion_formulae : List String) (all_valid_colors : GraphColors)
    (named_property_formulae : List (String × String)) (property_results : List GraphColors)
    (archive_name : String) (num_hctl_vars : Nat) (pd propSec : String)
    (hp : pathParent archive_name = some pd)
    (hsec : propertyLines named_property_formulae property_results = some propSec)
    (h31 : property_results.length < 31) :
    reportTextOf (write_class_report_and_dump_bdds env assertion_formulae all_valid_colors
        named_property_formulae property_results archive_name num_hctl_vars).2
      = fullReport assertion_formulae all_valid_colors propSec property_results := by
  obtain ⟨hok, hent, hev⟩ := write_class_ok env hAll assertion_formulae all_valid_colors
    named_property_formulae property_results archive_name num_hctl_vars pd propSec
    hp hsec h31
  unfold reportTextOf
  rw [hent]
  rw [lookup_append_right _ _ _ ?hne]
  case hne =>
    intro e he
    rcases List.mem_cons.mp he with heq | hmem
    · rw [heq]
      exact (by decide : (("report.txt" == "metadata.txt") : Bool) = false)
    · obtain ⟨i, _, _, hei⟩ := mem_dumpsOf _ _ _ e hmem
      rw [hei, beq_eq_false_iff_ne]
      exact fun h => dumpEntryName_ne_report _ i h.symm
  rw [List.lookup_cons]
  rw [show (("report.txt" == "report.txt") : Bool) = true by decide]
  rfl

theorem dumpNamesOf_write_class (env : FsEnv) (hAll : env.allOk)
    (assertion_formulae : List String) (all_valid_colors : GraphColors)
    (named_property_formulae : List (String × String)) (property_results : List GraphColors)
    (archive_name : String) (num_hctl_vars : Nat) (pd propSec : String)
    (hp : pathParent archive_name = some pd)
    (hsec : propertyLines named_property_formulae property_results = some propSec)
    (h31 : property_results.length < 31) :
    dumpNamesOf (write_class_report_and_dump_bdds env assertion_formulae all_valid_colors
        named_property_formulae property_results archive_name num_hctl_vars).2
      = (classDumpList all_valid_colors property_results).map Prod.fst := by
  obtain ⟨hok, hent, hev⟩ := write_class_ok env hAll assertion_formulae all_valid_colors
    named_property_formulae property_results archive_name num_hctl_vars pd propSec
    hp hsec h31
  unfold dumpNamesOf
  rw [hent]
  rw [List.map_append, List.map_cons, List.filter_append]
  rw [show ("metadata.txt", toString num_hctl_vars ++ "\n").1 = "metadata.txt" from rfl]
  have hmd : ¬ isDumpEntryName "metadata.txt" = true := by decide
  rw [List.filter_cons_of_neg hmd]
  rw [show (List.map Prod.fst [(("report.txt" : String),
      fullReport assertion_formulae all_valid_colors propSec property_results)])
    = ["report.txt"] from rfl]
  rw [show (["report.txt"].filter isDumpEntryName) = [] by decide]
  rw [List.append_nil]
  rw [List.filter_eq_self.mpr]
  intro a ha
  rw [List.mem_map] at ha
  obtain ⟨e, he, hea⟩ := ha
  obtain ⟨i, _, _, hei⟩ := mem_dumpsOf _ _ _ e he
  rw [← hea, hei]
  exact isDumpEntryName_dump _ _

/-- C8: two runs of write_class_report_and_dump_bdds with identical assertion
strings, baseline set, property names and formulae, property result sets and
metadata integer produce byte-identical report text and the same list of
bdd_dump entry names, for any two succeeding environments and any two archive
paths with a parent. -/
theorem write_class_deterministic (env1 env2 : FsEnv)
    (assertion_formulae : List String) (all_valid_colors : GraphColors)
    (named_property_formulae : List (String × String)) (property_results : List GraphColors)
    (name1 name2 : String) (num_hctl_vars : Nat) (pd1 pd2 propSec : String)
    (hAll1 : env1.allOk) (hAll2 : env2.allOk)
    (hp1 : pathParent name1 = some pd1) (hp2 : pathParent name2 = some pd2)
    (hsec : propertyLines named_property_formulae property_results = some propSec)
    (h31 : property_results.length < 31) :
    reportTextOf (write_class_report_and_dump_bdds env1 assertion_formulae all_valid_colors
        named_property_formulae property_results name1 num_hctl_vars).2
      = reportTextOf (write_class_report_and_dump_bdds env2 assertion_formulae
          all_valid_colors named_property_formulae property_results name2 num_hctl_vars).2 ∧
    dumpNamesOf (write_class_report_and_dump_bdds env1 assertion_formulae all_valid_colors
        named_property_formulae property_results name1 num_hctl_vars).2
      = dumpNamesOf (write_class_report_and_dump_bdds env2 assertion_formulae
          all_valid_colors named_property_formulae property_results name2 num_hctl_vars).2 := by
  constructor
  · rw [reportTextOf_write_class env1 hAll1 _ _ _ _ _ _ pd1 propSec hp1 hsec h31,
      reportTextOf_write_class env2 hAll2 _ _ _ _ _ _ pd2 propSec hp2 hsec h31]
  · rw [dumpNamesOf_write_class env1 hAll1 _ _ _ _ _ _ pd1 propSec hp1 hsec h31,
      dumpNamesOf_write_class env2 hAll2 _ _ _ _ _ _ pd2 propSec hp2 hsec h31]

/-- Witness for write_class_deterministic at two concrete environments and
paths. -/
theorem write_class_deterministic_witness :
    reportTextOf (write_class_report_and_dump_bdds okEnv ["a"] {0, 1} [("p", "f")] [{0}]
        "d/out.zip" 2).2
      = reportTextOf (write_class_report_and_dump_bdds
          { okEnv with dirExists := false } ["a"] {0, 1} [("p", "f")] [{0}]
          "e/other.zip" 2).2 ∧
    dumpNamesOf (write_class_report_and_dump_bdds okEnv ["a"] {0, 1} [("p", "f")] [{0}]
        "d/out.zip" 2).2
      = dumpNamesOf (write_class_report_and_dump_bdds
          { okEnv with dirExists := false } ["a"] {0, 1} [("p", "f")] [{0}]
          "e/other.zip" 2).2 :=
  write_class_deterministic okEnv { okEnv with dirExists := false } ["a"] {0, 1}
    [("p", "f")] [{0}] "d/out.zip" "e/other.zip" 2 "d" "e"
    ("# p  |  f\n" ++ "1 colors satisfy this property\n\n" ++ "")
    ⟨rfl, rfl, fun _ => rfl, fun _ => rfl, rfl⟩
    ⟨rfl, rfl, fun _ => rfl, fun _ => rfl, rfl⟩
    (by decide) (by decide) (by decide) (by decide)

theorem dumpsOf_filter_notin (B : GraphColors) (props : List GraphColors) (i : Nat)
    (hi : i < 2 ^ props.length) :
    ∀ idxs : List Nat, i ∉ idxs → (∀ j ∈ idxs, j < 2 ^ props.length) →
      (dumpsOf B props idxs).filter
        (fun e => e.1 == dumpEntryName props.length i) = [] := by
  intro idxs
  induction idxs with
  | nil => intro _ _; rfl
  | cons j rest ih =>
    intro hnotin hbound
    have hji : j ≠ i := by
      intro h
      exact hnotin (by simp [h])
    have hname : (dumpEntryName props.length j == dumpEntryName props.length i) = false := by
      rw [beq_eq_false_iff_ne]
      intro h
      exact hji (dumpEntryName_injective _ _ _ (hbound j (by simp)) hi h)
    have htail := ih (fun h => hnotin (by simp [h])) (fun k hk => hbound k (by simp [hk]))
    by_cases hemp : classColors B props j = ∅
    · rw [dumpsOf_cons_empty _ _ _ _ hemp]
      exact htail
    · rw [dumpsOf_cons_nonempty _ _ _ _ hemp]
      rw [List.filter_cons_of_neg (by simp [hname])]
      exact htail

theorem dumpsOf_filter_count (B : GraphColors) (props : List GraphColors) (i : Nat)
    (hi : i < 2 ^ props.length) :
    ∀ idxs : List Nat, i ∈ idxs → idxs.Nodup → (∀ j ∈ idxs, j < 2 ^ props.length) →
      (dumpsOf B props idxs).filter (fun e => e.1 == dumpEntryName props.length i)
        = if classColors B props i = ∅ then []
          else [(dumpEntryName props.length i, bddDumpContent (classColors B props i))] := by
  intro idxs
  induction idxs with
  | nil => intro h; cases h
  | cons j rest ih =>
    intro hin hnd hbound
    rcases List.mem_cons.mp hin with heq | hmem
    · subst heq
      have hni : i ∉ rest := (List.nodup_cons.mp hnd).1
      have htail := dumpsOf_filter_notin B props i hi rest hni
        (fun k hk => hbound k (by simp [hk]))
      by_cases hemp : classColors B props i = ∅
      · rw [dumpsOf_cons_empty _ _ _ _ hemp, if_pos hemp]
        exact htail
      · rw [dumpsOf_cons_nonempty _ _ _ _ hemp, if_neg hemp]
        rw [List.filter_cons_of_pos (by simp)]
        rw [htail]
    · have hji : j ≠ i := fun h => (List.nodup_cons.mp hnd).1 (h ▸ hmem)
      have hname : (dumpEntryName props.length j == dumpEntryName props.length i)
          = false := by
        rw [beq_eq_false_iff_ne]
        intro h
        exact hji (dumpEntryName_injective _ _ _ (hbound j (by simp)) hi h)
      have htail := ih hmem (List.nodup_cons.mp hnd).2 (fun k hk => hbound k (by simp [hk]))
      by_cases hemp : classColors B props j = ∅
      · rw [dumpsOf_cons_empty _ _ _ _ hemp]
        exact htail
      · rw [dumpsOf_cons_nonempty _ _ _ _ hemp]
        rw [List.filter_cons_of_neg (by simp [hname])]
        exact htail

theorem combinationIndices_eq_range (n : Nat) :
    combinationIndices n = List.range (2 ^ n) := by
  unfold combinationIndices
  rw [Nat.one_shiftLeft]

/-- C7: for every combination index below 2 ^ N, in a successful run, a class
with empty color set yields no archive entry named after it, and a class with
non-empty color set yields exactly one entry named bdd_dump_(label).txt whose
content is the serialized class set. -/
theorem dump_entry_gating (env : FsEnv) (assertion_formulae : List String)
    (all_valid_colors : GraphColors) (named_property_formulae : List (String × String))
    (property_results : List GraphColors) (archive_name : String) (num_hctl_vars : Nat)
    (pd propSec : String) (hAll : env.allOk) (hp : pathParent archive_name = some pd)
    (hsec : propertyLines named_property_formulae property_results = some propSec)
    (h31 : property_results.length < 31)
    (i : Nat) (hi : i < 2 ^ property_results.length) :
    ((write_class_report_and_dump_bdds env assertion_formulae all_valid_colors
        named_property_formulae property_results archive_name num_hctl_vars).2.entries.filter
          (fun e => e.1 == dumpEntryName property_results.length i)).length
      = (if classColors all_valid_colors property_results i = ∅ then 0 else 1) ∧
    (¬ classColors all_valid_colors property_results i = ∅ →
      (dumpEntryName property_results.length i,
        bddDumpContent (classColors all_valid_colors property_results i))
        ∈ (write_class_report_and_dump_bdds env assertion_formulae all_valid_colors
            named_property_formulae property_results archive_name num_hctl_vars).2.entries) ∧
    (classColors all_valid_colors property_results i = ∅ →
      ∀ c, (dumpEntryName property_results.length i, c)
        ∉ (write_class_report_and_dump_bdds env assertion_formulae all_valid_colors
            named_property_formulae property_results archive_name num_hctl_vars).2.entries) := by
  obtain ⟨hok, hent, hev⟩ := write_class_ok env hAll assertion_formulae all_valid_colors
    named_property_formulae property_results archive_name num_hctl_vars pd propSec
    hp hsec h31
  have hmem_range : i ∈ combinationIndices property_results.length := by
    rw [combinationIndices_eq_range, List.mem_range]
    exact hi
  have hnd : (combinationIndices property_results.length).Nodup := by
    rw [combinationIndices_eq_range]
    exact List.nodup_range _
  have hbound : ∀ j ∈ combinationIndices property_results.length,
      j < 2 ^ property_results.length := by
    intro j hj
    rw [combinationIndices_eq_range, List.mem_range] at hj
    exact hj
  have hmd : (("metadata.txt" : String) == dumpEntryName property_results.length i)
      = false := by
    rw [beq_eq_false_iff_ne]
    exact fun h => dumpEntryName_ne_metadata _ i h.symm
  have hrp : (("report.txt" : String) == dumpEntryName property_results.length i)
      = false := by
    rw [beq_eq_false_iff_ne]
    exact fun h => dumpEntryName_ne_report _ i h.symm
  have hfilter : (write_class_report_and_dump_bdds env assertion_formulae all_valid_colors
        named_property_formulae property_results archive_name num_hctl_vars).2.entries.filter
          (fun e => e.1 == dumpEntryName property_results.length i)
      = if classColors all_valid_colors property_results i = ∅ then []
        else [(dumpEntryName property_results.length i,
          bddDumpContent (classColors all_valid_colors property_results i))] := by
    rw [hent, List.filter_append, List.filter_cons_of_neg (by simp [hmd])]
    rw [show classDumpList all_valid_colors property_results
        = dumpsOf all_valid_colors property_results
            (combinationIndices property_results.length) from rfl]
    rw [dumpsOf_filter_count all_valid_colors property_results i hi _
      hmem_range hnd hbound]
    rw [show ([(("report.txt" : String),
        fullReport assertion_formulae all_valid_colors propSec property_results)].filter
          (fun e => e.1 == dumpEntryName property_results.length i)) = [] by
      rw [List.filter_cons_of_neg (by simp [hrp])]
      rfl]
    rw [List.append_nil]
  refine ⟨?_, ?_, ?_⟩
  · rw [hfilter]
    by_cases hemp : classColors all_valid_colors property_results i = ∅
    · rw [if_pos hemp, if_pos hemp]
      rfl
    · rw [if_neg hemp, if_neg hemp]
      rfl
  · intro hemp
    rw [hent]
    have hd : (dumpEntryName property_results.length i,
        bddDumpContent (classColors all_valid_colors property_results i))
        ∈ classDumpList all_valid_colors property_results := by
      unfold classDumpList dumpsOf
      rw [List.mem_filterMap]
      exact ⟨i, hmem_range, by rw [if_neg hemp]⟩
    simp [hd]
  · intro hemp c hc
    have hcf : (dumpEntryName property_results.length i, c)
        ∈ (write_class_report_and_dump_bdds env assertion_formulae all_valid_colors
            named_property_formulae property_results archive_name
            num_hctl_vars).2.entries.filter
          (fun e => e.1 == dumpEntryName property_results.length i) := by
      rw [List.mem_filter]
      exact ⟨hc, by simp⟩
    rw [hfilter, if_pos hemp] at hcf
    cases hcf

/-- Witness for dump_entry_gating at a concrete environment, inputs and
combination index. -/
theorem dump_entry_gating_witness :
    ((write_class_report_and_dump_bdds okEnv ["a"] {0, 1, 2} [("p", "f")] [{0, 1}]
        "d/out.zip" 3).2.entries.filter
          (fun e => e.1 == dumpEntryName ([({0, 1} : Finset Nat)]).length 0)).length
      = (if classColors {0, 1, 2} [{0, 1}] 0 = ∅ then 0 else 1) ∧
    (¬ classColors {0, 1, 2} [{0, 1}] 0 = ∅ →
      (dumpEntryName ([({0, 1} : Finset Nat)]).length 0,
        bddDumpContent (classColors {0, 1, 2} [{0, 1}] 0))
        ∈ (write_class_report_and_dump_bdds okEnv ["a"] {0, 1, 2} [("p", "f")] [{0, 1}]
            "d/out.zip" 3).2.entries) ∧
    (classColors {0, 1, 2} [{0, 1}] 0 = ∅ →
      ∀ c, (dumpEntryName ([({0, 1} : Finset Nat)]).length 0, c)
        ∉ (write_class_report_and_dump_bdds okEnv ["a"] {0, 1, 2} [("p", "f")] [{0, 1}]
            "d/out.zip" 3).2.entries) :=
  dump_entry_gating okEnv ["a"] {0, 1, 2} [("p", "f")] [{0, 1}] "d/out.zip" 3 "d"
    ("# " ++ "p" ++ "  |  " ++ "f" ++ "\n"
      ++ toString (approxCardinality ({0, 1} : Finset Nat))
      ++ " colors satisfy this property\n\n" ++ "")
    ⟨rfl, rfl, fun _ => rfl, fun _ => rfl, rfl⟩ (by decide) (by decide) (by decide)
    0 (by decide)

/-! ### Classifying failing runs -/

theorem except_bind_err {α β γ : Type} (e : γ) (f : α → Except γ β) :
    (Except.error e : Except γ α) >>= f = Except.error e := rfl

theorem zipStartFile_error (env : FsEnv) (st : ZipState) (n : String) (r : RunResult)
    (st2 : ZipState) (h : zipStartFile env st n = Except.error (r, st2)) :
    r = RunResult.panic zipUnwrapMsg ∧ st2.events = st.events ++ [ZipEvent.startFile n] := by
  unfold zipStartFile at h
  by_cases hc : env.startFileOk st.startCount = true
  · rw [if_pos hc] at h
    exact Except.noConfusion h
  · rw [if_neg hc] at h
    injection h with h1
    rw [Prod.mk.injEq] at h1
    exact ⟨h1.1.symm, by rw [← h1.2]⟩

theorem zipStartFile_ok_events (env : FsEnv) (st : ZipState) (n : String) (st1 : ZipState)
    (h : zipStartFile env st n = Except.ok st1) :
    st1.events = st.events ++ [ZipEvent.startFile n] := by
  unfold zipStartFile at h
  by_cases hc : env.startFileOk st.startCount = true
  · rw [if_pos hc] at h
    injection h with h1
    rw [← h1]
  · rw [if_neg hc] at h
    exact Except.noConfusion h

theorem zipWrite_error (env : FsEnv) (st : ZipState) (data : String) (r : RunResult)
    (st2 : ZipState) (h : zipWrite env st data = Except.error (r, st2)) :
    r = RunResult.ioErr ∧ st2.events = st.events := by
  unfold zipWrite at h
  by_cases hc : env.zipWriteOk st.writeCount = true
  · rw [if_pos hc] at h
    exact Except.noConfusion h
  · rw [if_neg hc] at h
    injection h with h1
    rw [Prod.mk.injEq] at h1
    exact ⟨h1.1.symm, by rw [← h1.2]⟩

theorem zipWrite_ok_events (env : FsEnv) (st : ZipState) (data : String) (st1 : ZipState)
    (h : zipWrite env st data = Except.ok st1) : st1.events = st.events := by
  unfold zipWrite at h
  by_cases hc : env.zipWriteOk st.writeCount = true
  · rw [if_pos hc] at h
    injection h with h1
    rw [← h1]
  · rw [if_neg hc] at h
    exact Except.noConfusion h

theorem zipFinish_error (env : FsEnv) (st : ZipState) (r : RunResult) (st2 : ZipState)
    (h : zipFinish env st = Except.error (r, st2)) :
    r = RunResult.panic zipUnwrapMsg := by
  unfold zipFinish at h
  by_cases hc : env.finishOk = true
  · rw [if_pos hc] at h
    exact Except.noConfusion h
  · rw [if_neg hc] at h
    injection h with h1
    rw [Prod.mk.injEq] at h1
    exact h1.1.symm

theorem fsCreateDirAll_error (env : FsEnv) (st : ZipState) (p : String) (r : RunResult)
    (st2 : ZipState) (h : fsCreateDirAll env st p = Except.error (r, st2)) :
    r = RunResult.ioErr ∧ st2.events = st.events ++ [ZipEvent.createDirAll p] := by
  unfold fsCreateDirAll at h
  by_cases hc : env.createDirOk = true
  · rw [if_pos hc] at h
    exact Except.noConfusion h
  · rw [if_neg hc] at h
    injection h with h1
    rw [Prod.mk.injEq] at h1
    exact ⟨h1.1.symm, by rw [← h1.2]⟩

theorem fsCreateDirAll_ok_events (env : FsEnv) (st : ZipState) (p : String) (st1 : ZipState)
    (h : fsCreateDirAll env st p = Except.ok st1) :
    st1.events = st.events ++ [ZipEvent.createDirAll p] := by
  unfold fsCreateDirAll at h
  by_cases hc : env.createDirOk = true
  · rw [if_pos hc] at h
    injection h with h1
    rw [← h1]
  · rw [if_neg hc] at h
    exact Except.noConfusion h

theorem fsCreateFile_error (env : FsEnv) (st : ZipState) (path : String) (r : RunResult)
    (st2 : ZipState) (h : fsCreateFile env st path = Except.error (r, st2)) :
    r = RunResult.ioErr ∧ st2.events = st.events ++ [ZipEvent.createFile path] := by
  unfold fsCreateFile at h
  by_cases hc : (env.createFileOk && (env.dirExists || st.dirsEnsured)) = true
  · rw [if_pos hc] at h
    exact Except.noConfusion h
  · rw [if_neg hc] at h
    injection h with h1
    rw [Prod.mk.injEq] at h1
    exact ⟨h1.1.symm, by rw [← h1.2]⟩

theorem fsCreateFile_ok_events (env : FsEnv) (st : ZipState) (path : String)
    (st1 : ZipState) (h : fsCreateFile env st path = Except.ok st1) :
    st1.events = st.events ++ [ZipEvent.createFile path] := by
  unfold fsCreateFile at h
  by_cases hc : (env.createFileOk && (env.dirExists || st.dirsEnsured)) = true
  · rw [if_pos hc] at h
    injection h with h1
    rw [← h1]
  · rw [if_neg hc] at h
    exact Except.noConfusion h

theorem classLoop_events (env : FsEnv) (B : GraphColors) (props : List GraphColors) :
    ∀ (idxs : List Nat) (st : ZipState) (report : String),
      (∀ r st2, classLoop env B props idxs st report = Except.error (r, st2) →
        (r = RunResult.ioErr ∨ r = RunResult.panic zipUnwrapMsg) ∧
        ∃ added, st2.events = st.events ++ added ∧ ZipEvent.finishArchive ∉ added) ∧
      (∀ res, classLoop env B props idxs st report = Except.ok res →
        ∃ added, res.1.events = st.events ++ added ∧ ZipEvent.finishArchive ∉ added) := by
  intro idxs
  induction idxs with
  | nil =>
    intro st report
    constructor
    · intro r st2 h
      exact Except.noConfusion h
    · intro res h
      injection h with h1
      exact ⟨[], by rw [← h1, List.append_nil], by simp⟩
  | cons i rest ih =>
    intro st report
    constructor
    · intro r st2 h
      simp only [classLoop] at h
      split at h
      · exact (ih st _).1 r st2 h
      · split at h
        · rename_i r1 heq
          injection h with h1
          rw [h1] at heq
          obtain ⟨hr, hev⟩ := zipStartFile_error env st _ r st2 heq
          refine ⟨Or.inr hr, _, hev, ?_⟩
          simp
        · rename_i st1 heq
          split at h
          · rename_i r1 heq2
            injection h with h1
            rw [h1] at heq2
            obtain ⟨hr, hev⟩ := zipWrite_error env st1 _ r st2 heq2
            have hev1 := zipStartFile_ok_events env st _ st1 heq
            refine ⟨Or.inl hr, [ZipEvent.startFile ("bdd_dump_"
              ++ bool_vec_to_string (int_to_bool_vec i props.length) ++ ".txt")], ?_, ?_⟩
            · rw [hev, hev1]
            · simp
          · rename_i st2' heq2
            obtain ⟨hr, added', hev', hnf⟩ := (ih st2' _).1 r st2 h
            have hev1 := zipStartFile_ok_events env st _ st1 heq
            have hev2 := zipWrite_ok_events env st1 _ st2' heq2
            refine ⟨hr, [ZipEvent.startFile ("bdd_dump_"
                ++ bool_vec_to_string (int_to_bool_vec i props.length) ++ ".txt")] ++ added',
              ?_, ?_⟩
            · rw [hev', hev2, hev1, List.append_assoc]
            · intro hmem
              rcases List.mem_append.mp hmem with hm | hm
              · simp at hm
              · exact hnf hm
    · intro res h
      simp only [classLoop] at h
      split at h
      · exact (ih st _).2 res h
      · split at h
        · rename_i r1 heq
          exact Except.noConfusion h
        · rename_i st1 heq
          split at h
          · rename_i r1 heq2
            exact Except.noConfusion h
          · rename_i st2' heq2
            obtain ⟨added', hev', hnf⟩ := (ih st2' _).2 res h
            have hev1 := zipStartFile_ok_events env st _ st1 heq
            have hev2 := zipWrite_ok_events env st1 _ st2' heq2
            refine ⟨[ZipEvent.startFile ("bdd_dump_"
                ++ bool_vec_to_string (int_to_bool_vec i props.length) ++ ".txt")] ++ added',
              ?_, ?_⟩
            · rw [hev', hev2, hev1, List.append_assoc]
            · intro hmem
              rcases List.mem_append.mp hmem with hm | hm
              · simp at hm
              · exact hnf hm

theorem panic_ne_of_msg_ne {m1 m2 : String} (h : m1 ≠ m2) :
    RunResult.panic m1 ≠ RunResult.panic m2 := by
  intro he
  injection he with hm
  exact h hm

theorem runClass_error (env : FsEnv) (assertion_formulae : List String)
    (all_valid_colors : GraphColors) (named_property_formulae : List (String × String))
    (property_results : List GraphColors) (archive_name : String) (num_hctl_vars : Nat)
    (r : RunResult) (st2 : ZipState)
    (h : runClass env assertion_formulae all_valid_colors named_property_formulae
        property_results archive_name num_hctl_vars = Except.error (r, st2)) :
    (r = RunResult.ioErr → ZipEvent.finishArchive ∉ st2.events) ∧
    (r = RunResult.panic assertFailMsg → 31 ≤ property_results.length) := by
  unfold runClass at h
  split at h
  · injection h with h1
    rw [Prod.mk.injEq] at h1
    constructor
    · intro hio
      rw [← h1.1] at hio
      exact absurd hio.symm (by decide)
    · intro hpa
      rw [← h1.1] at hpa
      exact absurd hpa (panic_ne_of_msg_ne (by decide))
  · rename_i parentDir heqp
    cases hcd : fsCreateDirAll env ZipState.init parentDir with
    | error e =>
      obtain ⟨r1, s1⟩ := e
      rw [hcd, except_bind_err] at h
      injection h with h1
      rw [Prod.mk.injEq] at h1
      obtain ⟨hr, hev⟩ := fsCreateDirAll_error env _ _ r1 s1 hcd
      constructor
      · intro _
        rw [← h1.2, hev]
        simp [ZipState.init]
      · intro hpa
        rw [← h1.1, hr] at hpa
        exact absurd hpa (by decide)
    | ok st1 =>
      have hev1 := fsCreateDirAll_ok_events env _ _ st1 hcd
      simp only [hcd, except_bind_ok] at h
      cases hcf : fsCreateFile env st1 archive_name with
      | error e =>
        obtain ⟨r1, s1⟩ := e
        rw [hcf, except_bind_err] at h
        injection h with h1
        rw [Prod.mk.injEq] at h1
        obtain ⟨hr, hev⟩ := fsCreateFile_error env _ _ r1 s1 hcf
        constructor
        · intro _
          rw [← h1.2, hev, hev1]
          simp [ZipState.init]
        · intro hpa
          rw [← h1.1, hr] at hpa
          exact absurd hpa (by decide)
      | ok st2' =>
        have hev2 := fsCreateFile_ok_events env _ _ st2' hcf
        simp only [hcf, except_bind_ok] at h
        cases hsf : zipStartFile env st2' "metadata.txt" with
        | error e =>
          obtain ⟨r1, s1⟩ := e
          rw [hsf, except_bind_err] at h
          injection h with h1
          rw [Prod.mk.injEq] at h1
          obtain ⟨hr, hev⟩ := zipStartFile_error env _ _ r1 s1 hsf
          constructor
          · intro hio
            rw [← h1.1, hr] at hio
            exact absurd hio (by decide)
          · intro hpa
            rw [← h1.1, hr] at hpa
            exact absurd hpa (panic_ne_of_msg_ne (by decide))
        | ok st3 =>
          have hev3 := zipStartFile_ok_events env _ _ st3 hsf
          simp only [hsf, except_bind_ok] at h
          cases hzw : zipWrite env st3 (toString num_hctl_vars ++ "\n") with
          | error e =>
            obtain ⟨r1, s1⟩ := e
            rw [hzw, except_bind_err] at h
            injection h with h1
            rw [Prod.mk.injEq] at h1
            obtain ⟨hr, hev⟩ := zipWrite_error env _ _ r1 s1 hzw
            constructor
            · intro _
              rw [← h1.2, hev, hev3, hev2, hev1]
              simp [ZipState.init]
            · intro hpa
              rw [← h1.1, hr] at hpa
              exact absurd hpa (by decide)
          | ok st4 =>
            have hev4 := zipWrite_ok_events env _ _ st4 hzw
            simp only [hzw, except_bind_ok] at h
            cases hpl : propertyLines named_property_formulae property_results with
            | none =>
              simp only [hpl] at h
              injection h with h1
              rw [Prod.mk.injEq] at h1
              constructor
              · intro hio
                rw [← h1.1] at hio
                exact absurd hio.symm (by decide)
              · intro hpa
                rw [← h1.1] at hpa
                exact absurd hpa (panic_ne_of_msg_ne (by decide))
            | some propSec =>
              simp only [hpl] at h
              by_cases h31 : property_results.length < 31
              · rw [if_pos h31] at h
                cases hcl : classLoop env all_valid_colors property_results
                    (combinationIndices property_results.length) st4 _ with
                | error e =>
                  obtain ⟨r1, s1⟩ := e
                  rw [hcl, except_bind_err] at h
                  injection h with h1
                  rw [Prod.mk.injEq] at h1
                  obtain ⟨hr, added, hev, hnf⟩ :=
                    (classLoop_events env all_valid_colors property_results
                      (combinationIndices property_results.length) st4 _).1 r1 s1 hcl
                  constructor
                  · intro _
                    rw [← h1.2, hev, hev4, hev3, hev2, hev1]
                    intro hmem
                    simp [ZipState.init, hnf] at hmem
                  · intro hpa
                    rw [← h1.1] at hpa
                    rcases hr with hr | hr <;> rw [hr] at hpa
                    · exact absurd hpa (by decide)
                    · exact absurd hpa (panic_ne_of_msg_ne (by decide))
                | ok res =>
                  obtain ⟨added0, hev0, hnf0⟩ :=
                    (classLoop_events env all_valid_colors property_results
                      (combinationIndices property_results.length) st4 _).2 res hcl
                  simp only [hcl, except_bind_ok] at h
                  cases hsf2 : zipStartFile env res.1 "report.txt" with
                  | error e =>
                    obtain ⟨r1, s1⟩ := e
                    rw [hsf2, except_bind_err] at h
                    injection h with h1
                    rw [Prod.mk.injEq] at h1
                    obtain ⟨hr, hev⟩ := zipStartFile_error env _ _ r1 s1 hsf2
                    constructor
                    · intro hio
                      rw [← h1.1, hr] at hio
                      exact absurd hio (by decide)
                    · intro hpa
                      rw [← h1.1, hr] at hpa
                      exact absurd hpa (panic_ne_of_msg_ne (by decide))
                  | ok st5 =>
                    have hev5 := zipStartFile_ok_events env _ _ st5 hsf2
                    simp only [hsf2, except_bind_ok] at h
                    cases hzw2 : zipWrite env st5 res.2 with
                    | error e =>
                      obtain ⟨r1, s1⟩ := e
                      rw [hzw2, except_bind_err] at h
                      injection h with h1
                      rw [Prod.mk.injEq] at h1
                      obtain ⟨hr, hev⟩ := zipWrite_error env _ _ r1 s1 hzw2
                      constructor
                      · intro _
                        rw [← h1.2, hev, hev5, hev0, hev4, hev3, hev2, hev1]
                        intro hmem
                        simp [ZipState.init, hnf0] at hmem
                      · intro hpa
                        rw [← h1.1, hr] at hpa
                        exact absurd hpa (by decide)
                    | ok st6 =>
                      simp only [hzw2, except_bind_ok] at h
                      cases hfin : zipFinish env st6 with
                      | error e =>
                        obtain ⟨r1, s1⟩ := e
                        rw [hfin, except_bind_err] at h
                        injection h with h1
                        rw [Prod.mk.injEq] at h1
                        have hr := zipFinish_error env _ r1 s1 hfin
                        constructor
                        · intro hio
                          rw [← h1.1, hr] at hio
                          exact absurd hio (by decide)
                        · intro hpa
                          rw [← h1.1, hr] at hpa
                          exact absurd hpa (panic_ne_of_msg_ne (by decide))
                      | ok st7 =>
                        simp only [hfin, except_bind_ok] at h
                        exact Except.noConfusion h
              · rw [if_neg h31] at h
                injection h with h1
                rw [Prod.mk.injEq] at h1
                constructor
                · intro hio
                  rw [← h1.1] at hio
                  exact absurd hio.symm (by decide)
                · intro _
                  omega

theorem write_class_result (env : FsEnv) (assertion_formulae : List String)
    (all_valid_colors : GraphColors) (named_property_formulae : List (String × String))
    (property_results : List GraphColors) (archive_name : String) (num_hctl_vars : Nat) :
    (write_class_report_and_dump_bdds env assertion_formulae all_valid_colors
        named_property_formulae property_results archive_name num_hctl_vars).1
      = RunResult.ok ∨
    runClass env assertion_formulae all_valid_colors named_property_formulae
        property_results archive_name num_hctl_vars
      = Except.error ((write_class_report_and_dump_bdds env assertion_formulae
            all_valid_colors named_property_formulae property_results archive_name
            num_hctl_vars).1,
          (write_class_report_and_dump_bdds env assertion_formulae all_valid_colors
            named_property_formulae property_results archive_name num_hctl_vars).2) := by
  unfold write_class_report_and_dump_bdds
  cases h : runClass env assertion_formulae all_valid_colors named_property_formulae
      property_results archive_name num_hctl_vars with
  | error e =>
    right
    rfl
  | ok st =>
    left
    rfl

theorem createDir_fail_ioErr (env : FsEnv) (assertion_formulae : List String)
    (all_valid_colors : GraphColors) (named_property_formulae : List (String × String))
    (property_results : List GraphColors) (archive_name : String) (num_hctl_vars : Nat)
    (pd : String) (hp : pathParent archive_name = some pd)
    (hcd : env.createDirOk = false) :
    (write_class_report_and_dump_bdds env assertion_formulae all_valid_colors
        named_property_formulae property_results archive_name num_hctl_vars).1
      = RunResult.ioErr := by
  unfold write_class_report_and_dump_bdds runClass
  simp only [hp]
  simp [fsCreateDirAll, hcd, except_bind_err]

/-- C5 (amended): failures of parent directory creation, of container file
creation, and of entry content writes (shown at the metadata write, the first
content write of the run) are each surfaced to the caller as the single io
error result, and every run that returns the io error aborted before finalize
was attempted: no finishArchive event is in its trace.  Failures of zip entry
creation (start_file, shown at the metadata entry) and of finalize are not
surfaced as io errors: they panic through unwrap. -/
theorem io_error_aborts (env : FsEnv) (assertion_formulae : List String)
    (all_valid_colors : GraphColors) (named_property_formulae : List (String × String))
    (property_results : List GraphColors) (archive_name : String) (num_hctl_vars : Nat) :
    (∀ pd, pathParent archive_name = some pd → env.createDirOk = false →
      (write_class_report_and_dump_bdds env assertion_formulae all_valid_colors
          named_property_formulae property_results archive_name num_hctl_vars).1
        = RunResult.ioErr) ∧
    (∀ pd, pathParent archive_name = some pd → env.createDirOk = true →
      env.createFileOk = false →
      (write_class_report_and_dump_bdds env assertion_formulae all_valid_colors
          named_property_formulae property_results archive_name num_hctl_vars).1
        = RunResult.ioErr) ∧
    (∀ pd, pathParent archive_name = some pd → env.createDirOk = true →
      env.createFileOk = true → env.startFileOk 0 = true → env.zipWriteOk 0 = false →
      (write_class_report_and_dump_bdds env assertion_formulae all_valid_colors
          named_property_formulae property_results archive_name num_hctl_vars).1
        = RunResult.ioErr) ∧
    (∀ pd, pathParent archive_name = some pd → env.createDirOk = true →
      env.createFileOk = true → env.startFileOk 0 = false →
      (write_class_report_and_dump_bdds env assertion_formulae all_valid_colors
          named_property_formulae property_results archive_name num_hctl_vars).1
        = RunResult.panic zipUnwrapMsg) ∧
    (∀ pd propSec, pathParent archive_name = some pd → env.createDirOk = true →
      env.createFileOk = true → (∀ k, env.startFileOk k = true) →
      (∀ k, env.zipWriteOk k = true) → env.finishOk = false →
      propertyLines named_property_formulae property_results = some propSec →
      property_results.length < 31 →
      (write_class_report_and_dump_bdds env assertion_formulae all_valid_colors
          named_property_formulae property_results archive_name num_hctl_vars).1
        = RunResult.panic zipUnwrapMsg) ∧
    ((write_class_report_and_dump_bdds env assertion_formulae all_valid_colors
        named_property_formulae property_results archive_name num_hctl_vars).1
          = RunResult.ioErr →
      ZipEvent.finishArchive ∉ (write_class_report_and_dump_bdds env assertion_formulae
        all_valid_colors named_property_formulae property_results archive_name
        num_hctl_vars).2.events) := by
  refine ⟨?_, ?_, ?_, ?_, ?_, ?_⟩
  · intro pd hp hcd
    exact createDir_fail_ioErr env assertion_formulae all_valid_colors
      named_property_formulae property_results archive_name num_hctl_vars pd hp hcd
  · intro pd hp hcd hcf
    unfold write_class_report_and_dump_bdds runClass
    simp only [hp]
    rw [fsCreateDirAll_ok env _ _ hcd]
    simp only [except_bind_ok]
    simp [fsCreateFile, hcf, except_bind_err]
  · intro pd hp hcd hcf hsf0 hzw0
    unfold write_class_report_and_dump_bdds runClass
    simp only [hp, except_bind_ok, fsCreateDirAll_ok, fsCreateFile_ok, zipStartFile_ok,
      hcd, hcf, hsf0, ZipState.init, Option.toList, Option.map, List.nil_append,
      Nat.zero_add, List.cons_append]
    simp [zipWrite, hzw0, except_bind_err]
  · intro pd hp hcd hcf hsf0
    unfold write_class_report_and_dump_bdds runClass
    simp only [hp, except_bind_ok, fsCreateDirAll_ok, fsCreateFile_ok,
      hcd, hcf, ZipState.init, Option.toList, Option.map, List.nil_append,
      Nat.zero_add, List.cons_append]
    simp [zipStartFile, hsf0, except_bind_err]
  · intro pd propSec hp hcd hcf hsf hzw hfin hsec h31
    obtain ⟨st2, hl1, hl2, hl3, hl4, hl5⟩ :=
      classLoop_ok env all_valid_colors property_results hsf hzw
        (combinationIndices property_results.length)
        { events := [ZipEvent.createDirAll pd, ZipEvent.createFile archive_name,
            ZipEvent.startFile "metadata.txt"],
          entries := [], current := some ("metadata.txt", toString num_hctl_vars ++ "\n"),
          startCount := 1, writeCount := 1, dirsEnsured := true }
        ((((assertion_formulae.foldl (fun r a => r ++ "# " ++ a ++ "\n")
            "### Assertion formulae\n\n")
          ++ toString (approxCardinality all_valid_colors)
          ++ " colors satisfy all assertions\n\n")
          ++ "### Property formulae individually\n\n")
          ++ propSec ++ "### Classes\n\n") rfl
    unfold write_class_report_and_dump_bdds runClass
    simp only [hp, except_bind_ok, fsCreateDirAll_ok, fsCreateFile_ok, zipStartFile_ok,
      zipWrite_ok, hcd, hcf, hsf, hzw, hsec, h31, if_true, ZipState.init, Option.toList,
      Option.map, List.nil_append, Nat.zero_add, List.cons_append, String.empty_append]
    rw [hl1]
    simp only [except_bind_ok, zipStartFile_ok, zipWrite_ok, hsf, hzw, Option.toList,
      Option.map, String.empty_append]
    simp [zipFinish, hfin, except_bind_err]
  · intro hio
    rcases write_class_result env assertion_formulae all_valid_colors
        named_property_formulae property_results archive_name num_hctl_vars with hok | herr
    · rw [hok] at hio
      exact absurd hio (by decide)
    · exact (runClass_error env assertion_formulae all_valid_colors
        named_property_formulae property_results archive_name num_hctl_vars _ _ herr).1 hio

/-- Witness for io_error_aborts: with the first content write failing, the run
returns the io error and the trace has no finalize event; with finalize
failing, the run panics. -/
theorem io_error_aborts_witness :
    ((write_class_report_and_dump_bdds { okEnv with zipWriteOk := fun _ => false } ["a"]
        {0} [] [] "d/out.zip" 1).1 = RunResult.ioErr ∧
      ZipEvent.finishArchive ∉ (write_class_report_and_dump_bdds
        { okEnv with zipWriteOk := fun _ => false } ["a"] {0} [] []
        "d/out.zip" 1).2.events) ∧
    (write_class_report_and_dump_bdds { okEnv with finishOk := false } ["a"] {0} [] []
        "d/out.zip" 1).1 = RunResult.panic zipUnwrapMsg := by
  have h := io_error_aborts { okEnv with zipWriteOk := fun _ => false } ["a"] {0} [] []
    "d/out.zip" 1
  have h1 := h.2.2.1 "d" (by decide) rfl rfl rfl rfl
  have h2 := io_error_aborts { okEnv with finishOk := false } ["a"] {0} [] [] "d/out.zip" 1
  have h3 := h2.2.2.2.2.1 "d" "" (by decide) rfl rfl (fun _ => rfl) (fun _ => rfl) rfl rfl
    (by decide)
  exact ⟨⟨h1, h.2.2.2.2.2 h1⟩, h3⟩

/-- Counterexample to C5 as stated: a failing zip entry creation (start_file)
does not produce an io error result; the run panics, modelling the unwrap in
the code. -/
theorem io_error_never_panic_counterexample :
    (write_class_report_and_dump_bdds { okEnv with startFileOk := fun _ => false } ["a"]
        {0} [] [] "d/out.zip" 1).1 = RunResult.panic zipUnwrapMsg := by
  decide

/-- C3: with a valid archive path and a names list no longer than the results
list, under a succeeding environment the run ends in the assertion panic
whenever the property count is at least 31; when the count is at most 30, no
environment can make the run end in the assertion panic, the combination count
1 <<< N is below 2 ^ 31 (representable as a positive i32), and the enumerated
combination indices are exactly 0..2^N - 1 in ascending order. -/
theorem property_ceiling (env : FsEnv) (assertion_formulae : List String)
    (all_valid_colors : GraphColors) (named_property_formulae : List (String × String))
    (property_results : List GraphColors) (archive_name : String) (num_hctl_vars : Nat)
    (pd : String) (hAll : env.allOk) (hp : pathParent archive_name = some pd)
    (hlen : named_property_formulae.length ≤ property_results.length) :
    (31 ≤ property_results.length →
      (write_class_report_and_dump_bdds env assertion_formulae all_valid_colors
          named_property_formulae property_results archive_name num_hctl_vars).1
        = RunResult.panic assertFailMsg) ∧
    (property_results.length ≤ 30 →
      (∀ env2 : FsEnv, (write_class_report_and_dump_bdds env2 assertion_formulae
          all_valid_colors named_property_formulae property_results archive_name
          num_hctl_vars).1 ≠ RunResult.panic assertFailMsg) ∧
      1 <<< property_results.length < 2 ^ 31 ∧
      combinationIndices property_results.length
        = List.range (2 ^ property_results.length) ∧
      List.Sorted (· < ·) (combinationIndices property_results.length)) := by
  obtain ⟨hcd, hcf, hsf, hzw, hfin⟩ := hAll
  obtain ⟨propSec, hpl⟩ := propertyLines_some named_property_formulae property_results hlen
  constructor
  · intro h31
    unfold write_class_report_and_dump_bdds runClass
    simp only [hp, except_bind_ok, fsCreateDirAll_ok, fsCreateFile_ok, zipStartFile_ok,
      zipWrite_ok, hcd, hcf, hsf, hzw, hpl, ZipState.init, Option.toList, Option.map,
      List.nil_append, Nat.zero_add, List.cons_append, String.empty_append]
    rw [if_neg (by omega : ¬ property_results.length < 31)]
  · intro h30
    refine ⟨?_, ?_, combinationIndices_eq_range _, ?_⟩
    · intro env2 hcontra
      rcases write_class_result env2 assertion_formulae all_valid_colors
          named_property_formulae property_results archive_name num_hctl_vars with hok | herr
      · rw [hok] at hcontra
        exact absurd hcontra (by decide)
      · have h31 := (runClass_error env2 assertion_formulae all_valid_colors
          named_property_formulae property_results archive_name num_hctl_vars _ _ herr).2
          hcontra
        omega
    · rw [Nat.one_shiftLeft]
      exact Nat.pow_lt_pow_right (by omega) (by omega)
    · rw [combinationIndices_eq_range]
      exact List.sorted_lt_range _

/-- Witness for property_ceiling: with 31 property result sets the run panics
with the assertion message. -/
theorem property_ceiling_witness :
    (write_class_report_and_dump_bdds okEnv ["a"] {0} []
        (List.replicate 31 (∅ : Finset Nat)) "d/out.zip" 1).1
      = RunResult.panic assertFailMsg :=
  (property_ceiling okEnv ["a"] {0} [] (List.replicate 31 (∅ : Finset Nat)) "d/out.zip" 1
    "d" ⟨rfl, rfl, fun _ => rfl, fun _ => rfl, rfl⟩ (by decide) (by decide)).1 (by decide)

/-- C6 (amended): write_class_report_and_dump_bdds creates the parent
directories before creating the container file (the first two filesystem
events, in order) and surfaces a directory creation failure as an io error;
write_empty_report never creates directories and fails with an io error when
the parent directory of its target does not exist. -/
theorem parent_dir_handling (env : FsEnv) (assertion_formulae : List String)
    (all_valid_colors : GraphColors) (named_property_formulae : List (String × String))
    (property_results : List GraphColors) (archive_name : String) (num_hctl_vars : Nat)
    (assertions2 : List String) (name2 : String) (pd propSec : String)
    (hAll : env.allOk) (hde : env.dirExists = true)
    (hp : pathParent archive_name = some pd)
    (hsec : propertyLines named_property_formulae property_results = some propSec)
    (h31 : property_results.length < 31) :
    ((write_class_report_and_dump_bdds env assertion_formulae all_valid_colors
        named_property_formulae property_results archive_name num_hctl_vars).2.events.take 2
      = [ZipEvent.createDirAll pd, ZipEvent.createFile archive_name]) ∧
    (∀ env2 : FsEnv, env2.createDirOk = false →
      (write_class_report_and_dump_bdds env2 assertion_formulae all_valid_colors
          named_property_formulae property_results archive_name num_hctl_vars).1
        = RunResult.ioErr) ∧
    (∀ e ∈ (write_empty_report env assertions2 name2).2.events, e.isCreateDir = false) ∧
    (∀ env2 : FsEnv, env2.dirExists = false →
      (write_empty_report env2 assertions2 name2).1 = RunResult.ioErr) := by
  obtain ⟨hok, hent, hev⟩ := write_class_ok env hAll assertion_formulae all_valid_colors
    named_property_formulae property_results archive_name num_hctl_vars pd propSec
    hp hsec h31
  obtain ⟨st, he1, he2, he3, he4⟩ := runEmpty_ok env hAll hde assertions2 name2
  have hempty : write_empty_report env assertions2 name2 = (RunResult.ok, st) := by
    unfold write_empty_report
    rw [he1]
  refine ⟨?_, ?_, ?_, ?_⟩
  · rw [hev]
    rfl
  · intro env2 hcd2
    exact createDir_fail_ioErr env2 assertion_formulae all_valid_colors
      named_property_formulae property_results archive_name num_hctl_vars pd hp hcd2
  · intro e he
    rw [hempty, he3] at he
    simp only [List.mem_cons, List.mem_singleton, List.not_mem_nil, or_false] at he
    rcases he with he | he | he <;> rw [he] <;> rfl
  · intro env2 hde2
    unfold write_empty_report runEmpty
    simp [fsCreateFile, hde2, ZipState.init, except_bind_err]

/-- Witness for parent_dir_handling at a concrete environment and inputs. -/
theorem parent_dir_handling_witness :
    (write_class_report_and_dump_bdds okEnv ["a"] {0} [] [] "d/out.zip" 1).2.events.take 2
      = [ZipEvent.createDirAll "d", ZipEvent.createFile "d/out.zip"] :=
  (parent_dir_handling okEnv ["a"] {0} [] [] "d/out.zip" 1 ["x"] "out.zip" "d" ""
    ⟨rfl, rfl, fun _ => rfl, fun _ => rfl, rfl⟩ rfl (by decide) rfl (by decide)).1

/-- Counterexample to C6 as stated: write_empty_report never creates parent
directories; with a target whose parent directory does not exist it fails with
an io error, having only attempted to create the file, and writes no entry. -/
theorem parent_dir_creation_counterexample :
    (write_empty_report { okEnv with dirExists := false } ["x"] "d/out.zip").1
      = RunResult.ioErr ∧
    (write_empty_report { okEnv with dirExists := false } ["x"] "d/out.zip").2.events
      = [ZipEvent.createFile "d/out.zip"] ∧
    (write_empty_report { okEnv with dirExists := false } ["x"] "d/out.zip").2.entries
      = [] := by
  decide

/-- C10: on the archive name with no parent component (the empty string), the
function panics on the unwrap of the parent of the path instead of returning
an io error, before any filesystem event takes place. -/
theorem no_parent_panics (env : FsEnv) (assertion_formulae : List String)
    (all_valid_colors : GraphColors) (named_property_formulae : List (String × String))
    (property_results : List GraphColors) (num_hctl_vars : Nat) :
    (write_class_report_and_dump_bdds env assertion_formulae all_valid_colors
        named_property_formulae property_results "" num_hctl_vars).1
      = RunResult.panic unwrapNoneMsg ∧
    (write_class_report_and_dump_bdds env assertion_formulae all_valid_colors
        named_property_formulae property_results "" num_hctl_vars).2.events = [] := by
  unfold write_class_report_and_dump_bdds runClass pathParent
  simp [ZipState.init]

end WriteOutput
